import Mathlib

/-!
Shallow embedding of the authoritative turn/physics room
`src/server/src/rooms/TurnBasedRAFRoom.ts` of the `raf` repository.

Modelling conventions:
* Colyseus `MapSchema` / JS `Map` values are insertion-ordered association
  lists `List (String × α)` with the JS `Map` semantics: `aset` overwrites in
  place or appends, `adel` removes, iteration follows list order.
* JS `number` fields are modelled as `Int` (positions, hp, damage) or `Nat`
  (timestamps, durations).  All claim-relevant arithmetic is ordering,
  clamping and equality, which is insensitive to this choice.
* `Date.now()` is modelled by a `now : Nat` field of the state; wall-clock
  reads inside a single synchronous handler observe the same value, and time
  advances through an explicit step of the transition relation.
* `Math.random()`-derived crate ids and spawn picks are resolved by an
  in-state supply `rngCrate`; creature ids and spawn positions created on
  join are parameters of `onJoin`.
* The Matter.js engine is represented by the room's id-to-body indices
  (`creatureBodies`, `crateBodies`); `Matter.Engine.update` is an arbitrary
  position oracle supplied to `fixedTick`, which subsumes the effect of the
  force/impulse applications on the resulting positions.
-/

namespace RAF

/-- JS `Map.get`: value of the first (unique) entry with the given key. -/
def aget {α : Type} : List (String × α) → String → Option α
  | [], _ => none
  | p :: rest, k => if p.1 = k then some p.2 else aget rest k

/-- JS `Map.set`: overwrite in place if the key is present, else append. -/
def aset {α : Type} : List (String × α) → String → α → List (String × α)
  | [], k, v => [(k, v)]
  | p :: rest, k, v => if p.1 = k then (k, v) :: rest else p :: aset rest k v

/-- JS `Map.delete`. -/
def adel {α : Type} (l : List (String × α)) (k : String) : List (String × α) :=
  l.filter (fun p => p.1 != k)

/-- JS `Array.prototype.indexOf` (-1 when absent). -/
def jsIndexOfAux (x : String) : List String → Int → Int
  | [], _ => -1
  | a :: rest, i => if a = x then i else jsIndexOfAux x rest (i + 1)

def jsIndexOf (l : List String) (x : String) : Int := jsIndexOfAux x l 0

/-- The `Creature` schema (TurnBasedRAFRoom.ts lines 6-14). -/
structure Creature where
  id : String
  ownerSessionId : String
  x : Int
  y : Int
  radius : Int
  color : String
  hp : Int
deriving Repr, DecidableEq

/-- The `Crate` schema (lines 16-22). -/
structure Crate where
  id : String
  x : Int
  y : Int
  weapon : String
deriving Repr, DecidableEq

/-- A Matter.js body, reduced to its claim-relevant position. -/
structure Body where
  x : Int
  y : Int
deriving Repr, DecidableEq

/-- The room's `latestInput` record. -/
structure InputState where
  left : Bool
  right : Bool
  jump : Bool
deriving Repr, DecidableEq

/-- Creature id and spawn position drawn on join (generateId / Math.random). -/
structure CreatureSpec where
  id : String
  x : Int
  y : Int
deriving Repr, DecidableEq

/-- Replicated `RAFState` plus the room's private fields (joinOrder,
body indices, deadlines, rng supply, wall clock). -/
structure GameState where
  creatures : List (String × Creature)
  activePlayerSessionId : String
  activeCreatureId : String
  turnRemainingMs : Nat
  terrainPoints : List Int
  waterline : Int
  playerNames : List (String × String)
  disconnectedUntil : List (String × Nat)
  winnerSessionId : String
  crates : List (String × Crate)
  weaponsByPlayer : List (String × String)
  joinOrder : List String
  lastCreatureIndexByPlayer : List (String × Int)
  turnEndsAt : Nat
  creatureBodies : List (String × Body)
  crateBodies : List (String × Body)
  latestInput : InputState
  jumpQueued : Bool
  createdOnJoinIds : List (String × List String)
  lastSnapshotAt : Nat
  now : Nat
  rngCrate : List (String × Nat)
deriving Repr, DecidableEq

def turnDurationMs : Nat := 30000

def disconnectGraceMs : Nat := 300000

def snapshotIntervalMs : Nat := 50

/-- Translation of `isDisconnected` (lines 548-551). -/
def isDisconnected (s : GameState) (sessionId : String) : Bool :=
  match aget s.disconnectedUntil sessionId with
  | some u => s.now < u
  | none => false

/-- Translation of `distinctOwnersWithAlive` (lines 437-442): owners of at least one living
creature, in join order. -/
def distinctOwnersWithAlive (s : GameState) : List String :=
  s.joinOrder.filter (fun id => s.creatures.any (fun p => p.2.ownerSessionId == id))

/-- Translation of `checkWinCondition` (lines 444-455); also returns the JS boolean result. -/
def checkWinCondition (s : GameState) : GameState × Bool :=
  let owners := distinctOwnersWithAlive s
  if owners.length ≤ 1 then
    ({ s with winnerSessionId := owners.headD "",
              activePlayerSessionId := "",
              activeCreatureId := "",
              turnRemainingMs := 0 }, true)
  else (s, false)

/-- Translation of `removeCreatureBody` (lines 540-546): the `Composite.remove` side of the
physics world is subsumed by dropping the index entry; a double removal is a
no-op exactly as in the source. -/
def removeCreatureBody (s : GameState) (id : String) : GameState :=
  { s with creatureBodies := adel s.creatureBodies id }

def defaultCreature : Creature := ⟨"", "", 0, 0, 0, "", 0⟩

/-- Loop body of `pickNextCreatureForPlayer` (lines 423-431); the `for` loop
over `i = 1..all.length` is translated with an explicit remaining-iterations
counter, started at `all.length`. -/
def pickLoop (s : GameState) (sessionId : String) (all : List Creature) (lastIdx : Int) :
    Nat → Nat → GameState
  | _, 0 =>
    { s with activeCreatureId := (all.headD defaultCreature).id,
             lastCreatureIndexByPlayer := aset s.lastCreatureIndexByPlayer sessionId 0 }
  | i, rem + 1 =>
    let idx := ((lastIdx + (i : Int)).emod (all.length : Int)).toNat
    match all[idx]? with
    | some c =>
      if (aget s.creatures c.id).isSome then
        { s with activeCreatureId := c.id,
                 lastCreatureIndexByPlayer := aset s.lastCreatureIndexByPlayer sessionId (idx : Int) }
      else pickLoop s sessionId all lastIdx (i + 1) rem
    | none => pickLoop s sessionId all lastIdx (i + 1) rem

/-- Translation of `pickNextCreatureForPlayer` (lines 415-435). The loop index arithmetic
`(lastIdx + i) % all.length` has a nonnegative dividend in every call (stored
indices are ≥ 0, the initial default is -1 and i ≥ 1), so JS remainder and
`Int.emod` agree. -/
def pickNextCreatureForPlayer (s : GameState) (sessionId : String) : GameState :=
  let all := (s.creatures.filter (fun p => p.2.ownerSessionId == sessionId)).map Prod.snd
  if all.isEmpty then { s with activeCreatureId := "" }
  else pickLoop s sessionId all ((aget s.lastCreatureIndexByPlayer sessionId).getD (-1)) 1 all.length

/-- First half of `spawnCrate` (lines 554-563): remove every existing crate
from the replicated state and the physics index. -/
def clearCrates (s : GameState) : GameState :=
  (s.crates.map Prod.fst).foldl
    (fun t id =>
      let t1 := { t with crates := adel t.crates id }
      match aget t1.crateBodies id with
      | some _ => { t1 with crateBodies := adel t1.crateBodies id }
      | none => t1)
    s

/-- The `for (i = 0; i < tp.length - 1; i += 2)` pairing of the flattened
terrain array (lines 568-569). -/
def stridePairs : List Int → List (Int × Int)
  | x :: y :: rest => (x, y) :: stridePairs rest
  | _ => []

/-- Sample selection of `spawnCrate` (lines 565-571): a dry-land terrain
sample when one exists, else an arbitrary sample; `r` resolves the
`Math.random()` index draw. -/
def spawnPick (s : GameState) (r : Nat) : Int × Int :=
  let pairs := stridePairs s.terrainPoints
  let dry := pairs.filter (fun p => p.2 < s.waterline - 10)
  if dry.isEmpty then pairs.getD (r % pairs.length) (0, 0)
  else dry.getD (r % dry.length) (0, 0)

/-- Translation of `spawnCrate` (lines 553-589).  The fresh crate id and the random index of
the spawn sample are drawn from the `rngCrate` supply. -/
def spawnCrate (s : GameState) : GameState :=
  let s1 := clearCrates s
  if s1.terrainPoints.length < 4 then s1
  else
    let draw := s1.rngCrate.headD ("", 0)
    let s2 := { s1 with rngCrate := s1.rngCrate.tail }
    let spot := spawnPick s1 draw.2
    let crate : Crate := ⟨draw.1, spot.1, -200, "grenade"⟩
    let s3 := { s2 with crates := aset s2.crates crate.id crate }
    { s3 with crateBodies := aset s3.crateBodies crate.id ⟨crate.x, crate.y⟩ }

/-- The select branch of the `advanceTurn` loop (lines 400-406): hand the
turn to `cand`, pick their next creature, reset the deadline to the full
turn duration and spawn the new turn's crate. -/
def selectPlayer (s : GameState) (cand : String) : GameState :=
  let s1 := { s with activePlayerSessionId := cand }
  let s2 := pickNextCreatureForPlayer s1 cand
  let s3 := { s2 with turnEndsAt := s2.now + turnDurationMs,
                      turnRemainingMs := turnDurationMs }
  spawnCrate s3

/-- Loop body of `advanceTurn` (lines 397-408), with an explicit
remaining-iterations counter started at `players.length` for the
`for (step = 1; step <= players.length; step++)` loop. -/
def advanceLoop (s : GameState) (players : List String) (cidx : Nat) :
    Nat → Nat → GameState
  | _, 0 =>
    { s with activePlayerSessionId := "", activeCreatureId := "", turnRemainingMs := 0 }
  | step, rem + 1 =>
    let cand := players.getD ((cidx + step) % players.length) ""
    if isDisconnected s cand then advanceLoop s players cidx (step + 1) rem
    else selectPlayer s cand

/-- Translation of `advanceTurn` (lines 383-413). -/
def advanceTurn (s : GameState) : GameState :=
  let w := checkWinCondition s
  if w.2 then w.1
  else
    let players := distinctOwnersWithAlive s
    if players.isEmpty then
      { s with activePlayerSessionId := "", activeCreatureId := "", turnRemainingMs := 0 }
    else
      let cidx := (max 0 (jsIndexOf players s.activePlayerSessionId)).toNat
      advanceLoop s players cidx 1 players.length

/-- The `onMessage "input"` handler (lines 91-99). -/
def handleInput (s : GameState) (sid : String) (m : InputState) : GameState :=
  if sid ≠ s.activePlayerSessionId then s
  else { s with latestInput := ⟨m.left, m.right, false⟩ }

/-- The `onMessage "jump"` handler (lines 102-105). -/
def handleJump (s : GameState) (sid : String) : GameState :=
  if sid ≠ s.activePlayerSessionId then s
  else { s with jumpQueued := true }

/-- The `onMessage "pickupCrate"` handler (lines 108-123).  The JS falsy check on
the two string fields is the comparison with `""`. -/
def handlePickupCrate (s : GameState) (sid crateId bySessionId : String) : GameState :=
  if sid ≠ s.activePlayerSessionId then s
  else if crateId = "" ∨ bySessionId = "" then s
  else
    match aget s.crates crateId with
    | none => s
    | some crate =>
      let weapon := if crate.weapon = "" then "grenade" else crate.weapon
      let s1 := { s with weaponsByPlayer := aset s.weaponsByPlayer bySessionId weapon,
                         crates := adel s.crates crateId }
      match aget s1.crateBodies crateId with
      | some _ => { s1 with crateBodies := adel s1.crateBodies crateId }
      | none => s1

/-- The `onMessage "consumeWeapon"` handler (lines 126-135).  Note: unlike the
other turn-scoped handlers it has no active-session check; the JS falsy test
`if (!current)` rejects a missing entry or the empty string. -/
def handleConsumeWeapon (s : GameState) (sid : String) : GameState :=
  match aget s.weaponsByPlayer sid with
  | none => s
  | some w =>
    if w = "" then s
    else { s with weaponsByPlayer := adel s.weaponsByPlayer sid,
                  turnEndsAt := s.now + 5000,
                  turnRemainingMs := 5000 }

/-- The per-hit clamp `Math.max(0, Math.min(200, dmg))` of line 145. -/
def clampDamage (dmg : Int) : Int := max 0 (min 200 dmg)

/-- First loop of the `applyDamage` handler (lines 141-148): apply the hits
in order, collecting the ids whose hp reached 0 in `toDelete` order. -/
def damageLoop : List (String × Creature) → List (String × Int) →
    List (String × Creature) × List String
  | cs, [] => (cs, [])
  | cs, (hid, dmg) :: rest =>
    match aget cs hid with
    | none => damageLoop cs rest
    | some c =>
      let c1 := { c with hp := max 0 (c.hp - clampDamage dmg) }
      let res := damageLoop (aset cs hid c1) rest
      if c1.hp ≤ 0 then (res.1, c1.id :: res.2) else res

/-- Second loop of the `applyDamage` handler (lines 149-158): delete each
dead creature from state and physics, advancing the turn when it was the
active creature and re-checking the win condition otherwise. -/
def deleteLoop (s : GameState) : List String → GameState
  | [] => s
  | id :: rest =>
    let wasActive := id = s.activeCreatureId
    let s1 := removeCreatureBody { s with creatures := adel s.creatures id } id
    let s2 := if wasActive then advanceTurn s1 else (checkWinCondition s1).1
    deleteLoop s2 rest

/-- The `onMessage "applyDamage"` handler (lines 138-159). -/
def handleApplyDamage (s : GameState) (sid : String) (hits : List (String × Int)) : GameState :=
  if sid ≠ s.activePlayerSessionId then s
  else
    let r := damageLoop s.creatures hits
    deleteLoop { s with creatures := r.1 } r.2

/-- The `onMessage "takeover"` handler (lines 162-201). -/
def handleTakeover (s : GameState) (sid target : String) : GameState :=
  if target = "" ∨ target = sid then s
  else
    match aget s.disconnectedUntil target with
    | none => s
    | some graceUntil =>
      if graceUntil ≤ s.now then s
      else
        let mine := (aget s.createdOnJoinIds sid).getD []
        let s1 := { s with creatures := mine.foldl (fun cs id => adel cs id) s.creatures }
        let s2 := { s1 with createdOnJoinIds := adel s1.createdOnJoinIds sid }
        let s3 := { s2 with creatures := s2.creatures.map (fun p : String × Creature =>
            if p.2.ownerSessionId == target then (p.1, { p.2 with ownerSessionId := sid })
            else p) }
        let idx := jsIndexOf s3.joinOrder target
        let jo1 := if 0 ≤ idx then s3.joinOrder.set idx.toNat sid else s3.joinOrder
        let jo2 := (jo1.enum.filter (fun p : Nat × String => ((p.1 : Int) == idx) || (p.2 != sid))).map Prod.snd
        let s4 := { s3 with joinOrder := jo2 }
        let s5 := match aget s4.lastCreatureIndexByPlayer target with
          | some li => { s4 with lastCreatureIndexByPlayer := aset s4.lastCreatureIndexByPlayer sid li }
          | none => s4
        let s6 := { s5 with lastCreatureIndexByPlayer := adel s5.lastCreatureIndexByPlayer target }
        let s7 := if s6.activePlayerSessionId = target
                  then { s6 with activePlayerSessionId := sid } else s6
        { s7 with playerNames := adel s7.playerNames target,
                  disconnectedUntil := adel s7.disconnectedUntil target }

/-- The `onMessage "kill"` handler (lines 203-216). -/
def handleKill (s : GameState) (sid creatureId : String) : GameState :=
  match aget s.creatures creatureId with
  | none => s
  | some c =>
    if c.ownerSessionId ≠ sid ∧ sid ≠ s.activePlayerSessionId then s
    else
      let s1 := { s with creatures := adel s.creatures creatureId }
      if s1.activeCreatureId = creatureId then advanceTurn s1
      else (checkWinCondition s1).1

/-- The `onMessage "endTurn"` handler (lines 218-222). -/
def handleEndTurn (s : GameState) (sid : String) : GameState :=
  if sid = s.activePlayerSessionId then advanceTurn s else s

def palette : List String :=
  ["#2d8cf0", "#19be6b", "#ff9900", "#ed3f14", "#9a66e4", "#00bcd4", "#ff4081", "#00e5ff"]

/-- Translation of `colorForOwner` (lines 464-468). -/
def colorForOwner (s : GameState) (sessionId : String) : String :=
  palette.getD ((max 0 (jsIndexOf s.joinOrder sessionId)).toNat % palette.length) ""

/-- One iteration of the creature-creation loop of `onJoin` (lines 243-259). -/
def addJoinCreature (s : GameState) (sid color : String) (spec : CreatureSpec) : GameState :=
  let c : Creature := ⟨spec.id, sid, spec.x, spec.y, 16, color, 100⟩
  let s1 := { s with creatures := aset s.creatures c.id c }
  let s2 := { s1 with creatureBodies := aset s1.creatureBodies c.id ⟨c.x, c.y⟩ }
  let created := ((aget s2.createdOnJoinIds sid).getD []) ++ [c.id]
  { s2 with createdOnJoinIds := aset s2.createdOnJoinIds sid created }

/-- Translation of `onJoin` (lines 232-269).  `name` stands for the already sanitised
display name (the trim/collapse/truncate of lines 237-240 is presentation
only and no claim depends on it); the three creature specs carry the random
ids and spawn positions of the creation loop. -/
def onJoin (s : GameState) (sid name : String) (c1 c2 c3 : CreatureSpec) : GameState :=
  let s0 := if sid ∈ s.joinOrder then s else { s with joinOrder := s.joinOrder ++ [sid] }
  let color := colorForOwner s0 sid
  let s1 := { s0 with playerNames := aset s0.playerNames sid name }
  let s2 := addJoinCreature s1 sid color c1
  let s3 := addJoinCreature s2 sid color c2
  let s4 := addJoinCreature s3 sid color c3
  if s4.activePlayerSessionId = "" then selectPlayer s4 sid
  else s4

/-- Tail of `onLeave` (lines 290-294). -/
def onLeaveTail (s : GameState) (sid : String) : GameState :=
  if sid = s.activePlayerSessionId then advanceTurn s else (checkWinCondition s).1

/-- Translation of `onLeave` (lines 271-295).  The JS `const other = owners.find(...);
if (other)` is translated with `""` standing for the falsy undefined/empty
result. -/
def onLeave (s : GameState) (sid : String) : GameState :=
  let s1 := { s with joinOrder := s.joinOrder.filter (fun id => id != sid) }
  let s2 := { s1 with lastCreatureIndexByPlayer := adel s1.lastCreatureIndexByPlayer sid }
  let s3 := { s2 with disconnectedUntil := aset s2.disconnectedUntil sid (s2.now + disconnectGraceMs) }
  let owners := distinctOwnersWithAlive s3
  let other := if owners.length = 2 then (owners.find? (fun id => id != sid)).getD "" else ""
  if other ≠ "" then
    { s3 with winnerSessionId := other, activePlayerSessionId := "",
              activeCreatureId := "", turnRemainingMs := 0 }
  else onLeaveTail s3 sid

/-- Translation of `fixedTick` lines 298-302: refresh the countdown and advance on timeout. -/
def tickTimeoutPhase (s : GameState) : GameState :=
  let s1 := { s with turnRemainingMs := s.turnEndsAt - s.now }
  if s1.turnRemainingMs = 0 ∧ s1.activePlayerSessionId ≠ "" then advanceTurn s1 else s1

/-- Translation of `fixedTick` lines 304-308: skip a disconnected active player. -/
def tickDisconnectSkipPhase (s : GameState) : GameState :=
  if s.activePlayerSessionId ≠ "" ∧ isDisconnected s s.activePlayerSessionId then advanceTurn s
  else s

/-- Body of the expiry loop of `fixedTick` (lines 315-327) for one expired
session id. -/
def expireOne (s : GameState) (sid : String) : GameState :=
  let victims := (s.creatures.filter (fun p => p.2.ownerSessionId == sid)).map (fun p => p.2.id)
  let s1 := victims.foldl (fun t id => removeCreatureBody { t with creatures := adel t.creatures id } id) s
  let s2 := { s1 with joinOrder := s1.joinOrder.filter (fun id => id != sid),
                      lastCreatureIndexByPlayer := adel s1.lastCreatureIndexByPlayer sid,
                      playerNames := adel s1.playerNames sid,
                      disconnectedUntil := adel s1.disconnectedUntil sid }
  if sid = s2.activePlayerSessionId then advanceTurn s2 else s2

/-- Translation of `fixedTick` lines 310-327: collect and remove players whose grace
expired. -/
def tickExpiryPhase (s : GameState) : GameState :=
  let expired := (s.disconnectedUntil.filter (fun p => p.2 ≤ s.now)).map Prod.fst
  expired.foldl expireOne s

/-- Translation of `fixedTick` lines 329-344.  The horizontal force and the queued jump
impulse act on engine bodies whose positions the integration oracle of the
next phase determines, so their only observable model effect is consuming
the queued jump, which happens exactly when the active creature has a
body. -/
def tickInputPhase (s : GameState) : GameState :=
  if s.activeCreatureId ≠ "" then
    match aget s.creatureBodies s.activeCreatureId with
    | some _ => if s.jumpQueued then { s with jumpQueued := false } else s
    | none => s
  else s

/-- Translation of `Matter.Engine.update` (line 347): every body's position is replaced by
the oracle's value for its id. -/
def tickPhysicsPhase (s : GameState) (posFn : String → Int × Int) : GameState :=
  { s with creatureBodies := s.creatureBodies.map (fun p => (p.1, ⟨(posFn p.1).1, (posFn p.1).2⟩)),
           crateBodies := s.crateBodies.map (fun p => (p.1, ⟨(posFn p.1).1, (posFn p.1).2⟩)) }

/-- Translation of `fixedTick` lines 349-355: mirror body positions into the schema. -/
def tickMirrorPhase (s : GameState) : GameState :=
  { s with creatures := s.creatureBodies.foldl (fun cs p =>
      match aget cs p.1 with
      | none => cs
      | some c => aset cs p.1 { c with x := p.2.x, y := p.2.y }) s.creatures }

/-- Ids of bodies past the waterline margin (lines 358-361). -/
def drownedIds (s : GameState) : List String :=
  (s.creatureBodies.filter (fun p => s.waterline + 10 < p.2.y)).map Prod.fst

/-- Removal loop of the drown check (lines 362-367). -/
def drownLoop (s : GameState) : List String → GameState
  | [] => s
  | id :: rest =>
    let wasActive := id = s.activeCreatureId
    let s1 := removeCreatureBody { s with creatures := adel s.creatures id } id
    let s2 := if wasActive then advanceTurn s1 else s1
    drownLoop s2 rest

/-- Translation of `fixedTick` lines 357-367: drown check and removals. -/
def tickDrownPhase (s : GameState) : GameState :=
  drownLoop s (drownedIds s)

/-- Translation of `fixedTick` lines 369-380: the snapshot broadcast is read-only except
for the `lastSnapshotAt` stamp. -/
def tickSnapshotPhase (s : GameState) : GameState :=
  if snapshotIntervalMs ≤ s.now - s.lastSnapshotAt then { s with lastSnapshotAt := s.now } else s

/-- Translation of `fixedTick` (lines 297-381): the phases in source order. -/
def fixedTick (s : GameState) (posFn : String → Int × Int) : GameState :=
  tickSnapshotPhase (tickDrownPhase (tickMirrorPhase (tickPhysicsPhase
    (tickInputPhase (tickExpiryPhase (tickDisconnectSkipPhase (tickTimeoutPhase s)))) posFn)))

/-- The room state right after `onCreate` (lines 72-230): empty maps, the
generated terrain exposed in `terrainPoints`, waterline 560. -/
def initState (tp : List Int) (t0 : Nat) (rng : List (String × Nat)) : GameState :=
  { creatures := [], activePlayerSessionId := "", activeCreatureId := "",
    turnRemainingMs := 0, terrainPoints := tp, waterline := 560,
    playerNames := [], disconnectedUntil := [], winnerSessionId := "",
    crates := [], weaponsByPlayer := [], joinOrder := [],
    lastCreatureIndexByPlayer := [], turnEndsAt := 0,
    creatureBodies := [], crateBodies := [], latestInput := ⟨false, false, false⟩,
    jumpQueued := false, createdOnJoinIds := [], lastSnapshotAt := 0,
    now := t0, rngCrate := rng }

/-- One observable transition of the room: a message handler, a lifecycle
callback, a simulation tick (with its physics oracle), or the wall clock
advancing. -/
inductive Step : GameState → GameState → Prop where
  | msgInput (s : GameState) (sid : String) (m : InputState) : Step s (handleInput s sid m)
  | msgJump (s : GameState) (sid : String) : Step s (handleJump s sid)
  | msgPickupCrate (s : GameState) (sid crateId bySessionId : String) :
      Step s (handlePickupCrate s sid crateId bySessionId)
  | msgConsumeWeapon (s : GameState) (sid : String) : Step s (handleConsumeWeapon s sid)
  | msgApplyDamage (s : GameState) (sid : String) (hits : List (String × Int)) :
      Step s (handleApplyDamage s sid hits)
  | msgTakeover (s : GameState) (sid target : String) : Step s (handleTakeover s sid target)
  | msgKill (s : GameState) (sid creatureId : String) : Step s (handleKill s sid creatureId)
  | msgEndTurn (s : GameState) (sid : String) : Step s (handleEndTurn s sid)
  | join (s : GameState) (sid name : String) (c1 c2 c3 : CreatureSpec) :
      Step s (onJoin s sid name c1 c2 c3)
  | leave (s : GameState) (sid : String) : Step s (onLeave s sid)
  | tick (s : GameState) (posFn : String → Int × Int) : Step s (fixedTick s posFn)
  | timePasses (s : GameState) (dt : Nat) : Step s { s with now := s.now + dt }

/-- States reachable from a fresh room (terrain `tp`, start clock `t0`,
randomness supply `rng`). -/
def Reachable (tp : List Int) (t0 : Nat) (rng : List (String × Nat)) (s : GameState) : Prop :=
  Relation.ReflTransGen Step (initState tp t0 rng) s

/-- The crate-singularity invariant: the replicated crate map and the crate
physics index hold the same keys, and at most one crate exists. -/
def CrateInv (s : GameState) : Prop :=
  s.crates.map Prod.fst = s.crateBodies.map Prod.fst ∧ s.crates.length ≤ 1

/-- The room keys every creature map entry by the creature's own `id`
(`creatures.set(c.id, c)`); the damage accounting relies on it. -/
def KeyConsistent (cs : List (String × Creature)) : Prop :=
  ∀ k c, aget cs k = some c → c.id = k

/-- One explicit end-turn issued by the current active player. -/
def endTurnStep (s : GameState) : GameState := handleEndTurn s s.activePlayerSessionId

/-- The eligibility hypothesis of the rotation claim: a duplicate-free
rotation of at least two players, each connected and owning at least one
living creature, with the active player among them. -/
def EligibleRound (s : GameState) : Prop :=
  s.joinOrder.Nodup ∧ 2 ≤ s.joinOrder.length ∧
  s.activePlayerSessionId ∈ s.joinOrder ∧
  (∀ sid ∈ s.joinOrder, s.creatures.any (fun p => p.2.ownerSessionId == sid) = true) ∧
  (∀ sid ∈ s.joinOrder, isDisconnected s sid = false)

/-! ### Concrete room states used by the counterexample and witness theorems -/

def mkCreature (cid sid : String) : Creature := ⟨cid, sid, 100, 300, 16, "#2d8cf0", 100⟩

/-- Two players, `p1` active with creature `c1`, `p2` holding a grenade. -/
def exA : GameState :=
  { creatures := [("c1", mkCreature "c1" "p1"), ("c2", mkCreature "c2" "p2")],
    activePlayerSessionId := "p1", activeCreatureId := "c1",
    turnRemainingMs := 30000, terrainPoints := [], waterline := 560,
    playerNames := [("p1", "Alice"), ("p2", "Bob")],
    disconnectedUntil := [], winnerSessionId := "",
    crates := [], weaponsByPlayer := [("p2", "grenade")],
    joinOrder := ["p1", "p2"],
    lastCreatureIndexByPlayer := [("p1", 0), ("p2", 0)], turnEndsAt := 1030000,
    creatureBodies := [("c1", ⟨100, 300⟩), ("c2", ⟨100, 300⟩)], crateBodies := [],
    latestInput := ⟨false, false, false⟩, jumpQueued := false,
    createdOnJoinIds := [("p1", ["c1"]), ("p2", ["c2"])], lastSnapshotAt := 0,
    now := 1000000, rngCrate := [] }

/-- Three connected players, each owning one living creature; `p1` active. -/
def exS3 : GameState :=
  { exA with
      creatures := [("c1", mkCreature "c1" "p1"), ("c2", mkCreature "c2" "p2"),
                    ("c3", mkCreature "c3" "p3")],
      joinOrder := ["p1", "p2", "p3"],
      creatureBodies := [("c1", ⟨100, 300⟩), ("c2", ⟨100, 300⟩), ("c3", ⟨100, 300⟩)],
      playerNames := [("p1", "Alice"), ("p2", "Bob"), ("p3", "Carol")],
      createdOnJoinIds := [("p1", ["c1"]), ("p2", ["c2"]), ("p3", ["c3"])] }

/-- Four connected players, each owning one living creature; `p1` active. -/
def exS4 : GameState :=
  { exS3 with
      creatures := exS3.creatures ++ [("c4", mkCreature "c4" "p4")],
      joinOrder := ["p1", "p2", "p3", "p4"],
      playerNames := exS3.playerNames ++ [("p4", "Dave")] }

/-- A single player, active, owning one living creature. -/
def exS1 : GameState :=
  { exA with creatures := [("c1", mkCreature "c1" "p1")], joinOrder := ["p1"],
             creatureBodies := [("c1", ⟨100, 300⟩)] }

/-- Physics oracle that pushes `c2` below the waterline margin. -/
def exPosDrown : String → Int × Int := fun id => if id = "c2" then (0, 600) else (100, 300)

/-- Takeover scenario: `p2` leaves the four-player game, `p9` joins and takes
over `p2`. -/
def exTakeover : GameState :=
  handleTakeover
    (onJoin (onLeave exS4 "p2") "p9" "Nina" ⟨"n1", 100, 200⟩ ⟨"n2", 110, 200⟩ ⟨"n3", 120, 200⟩)
    "p9" "p2"

/-- Variant of `exA` with the body of the non-active creature `c2` already past the
waterline margin. -/
def exD : GameState :=
  { exA with creatureBodies := [("c1", ⟨100, 300⟩), ("c2", ⟨0, 600⟩)] }

/-- Variant of `exA` with the active player holding a grenade, 20 s into the turn. -/
def exC7 : GameState :=
  { exA with weaponsByPlayer := [("p1", "grenade")], turnRemainingMs := 20000 }


end RAF

namespace RAF

/-! ### Association-list lemmas -/

theorem aget_aset_self {α : Type} (l : List (String × α)) (k : String) (v : α) :
    aget (aset l k v) k = some v := by
  induction l with
  | nil => simp [aset, aget]
  | cons p rest ih =>
    by_cases h : p.1 = k
    · simp [aset, aget, h]
    · simp [aset, aget, h, ih]

theorem aget_aset_ne {α : Type} (l : List (String × α)) (k k' : String) (v : α)
    (h : k' ≠ k) : aget (aset l k v) k' = aget l k' := by
  have h' : k ≠ k' := Ne.symm h
  induction l with
  | nil => simp [aset, aget, h']
  | cons p rest ih =>
    by_cases hp : p.1 = k
    · simp [aset, aget, hp, h']
    · by_cases hp' : p.1 = k'
      · simp [aset, aget, hp, hp', h]
      · simp [aset, aget, hp, hp', ih]

theorem aget_adel_self {α : Type} (l : List (String × α)) (k : String) :
    aget (adel l k) k = none := by
  induction l with
  | nil => simp [adel, aget]
  | cons p rest ih =>
    by_cases h : p.1 = k
    · simpa [adel, aget, h] using ih
    · simpa [adel, aget, h] using ih

theorem aget_adel_ne {α : Type} (l : List (String × α)) (k k' : String)
    (h : k' ≠ k) : aget (adel l k) k' = aget l k' := by
  have h' : k ≠ k' := Ne.symm h
  induction l with
  | nil => simp [adel, aget]
  | cons p rest ih =>
    by_cases hp : p.1 = k
    · simp only [adel, List.filter_cons] at *
      simp [hp, aget, h', ih]
    · by_cases hp' : p.1 = k'
      · simp only [adel, List.filter_cons] at *
        simp [hp, hp', aget, h]
      · simp only [adel, List.filter_cons] at *
        simp [hp, hp', aget, ih]

theorem aget_eq_none_of_not_mem {α : Type} (l : List (String × α)) (k : String)
    (h : k ∉ l.map Prod.fst) : aget l k = none := by
  induction l with
  | nil => simp [aget]
  | cons p rest ih =>
    simp only [List.map_cons, List.mem_cons] at h
    push_neg at h
    have hp : p.1 ≠ k := fun hh => h.1 hh.symm
    simp [aget, hp, ih h.2]

theorem aget_isSome_of_mem {α : Type} (l : List (String × α)) (k : String)
    (h : k ∈ l.map Prod.fst) : (aget l k).isSome := by
  induction l with
  | nil => simp at h
  | cons p rest ih =>
    simp only [List.map_cons, List.mem_cons] at h
    by_cases hp : p.1 = k
    · simp [aget, hp]
    · rcases h with h | h
      · exact absurd h.symm hp
      · simp [aget, hp, ih h]

theorem adel_map_fst {α : Type} (l : List (String × α)) (k : String) :
    (adel l k).map Prod.fst = (l.map Prod.fst).filter (fun x => x != k) := by
  induction l with
  | nil => simp [adel]
  | cons p rest ih =>
    by_cases h : p.1 = k
    · simp [adel, List.filter, h, ih]
      simpa [adel] using ih
    · simp only [adel, List.filter, List.map_cons] at *
      have hb : (p.1 != k) = true := by simpa using h
      simp [hb, ih]

theorem map_fst_singleton {α : Type} {l : List (String × α)} {k : String}
    (h : l.map Prod.fst = [k]) : ∃ v, l = [(k, v)] := by
  match l with
  | [] => simp at h
  | p :: rest =>
    simp only [List.map_cons, List.cons.injEq] at h
    have : rest = [] := by
      cases rest with
      | nil => rfl
      | cons q t => simp at h
    subst this
    exact ⟨p.2, by cases p with | mk a b => simp_all⟩

end RAF

namespace RAF

/-! ### Shape (frame) lemmas: each scheduler-side operation only rewrites a
known set of fields.  From these, preservation of every other field follows
by rewriting. -/

theorem checkWinCondition_shape (s : GameState) :
    ∃ w a ac trm, (checkWinCondition s).1 =
      { s with winnerSessionId := w, activePlayerSessionId := a,
               activeCreatureId := ac, turnRemainingMs := trm } := by
  unfold checkWinCondition
  by_cases h : (distinctOwnersWithAlive s).length ≤ 1
  · exact ⟨(distinctOwnersWithAlive s).headD "", "", "", 0, by simp [h]⟩
  · exact ⟨s.winnerSessionId, s.activePlayerSessionId, s.activeCreatureId,
      s.turnRemainingMs, by simp [h]⟩

theorem pickLoop_shape (s : GameState) (sessionId : String) (all : List Creature)
    (lastIdx : Int) (i rem : Nat) :
    ∃ ac li, pickLoop s sessionId all lastIdx i rem =
      { s with activeCreatureId := ac, lastCreatureIndexByPlayer := li } := by
  induction rem generalizing i with
  | zero =>
    exact ⟨(all.headD defaultCreature).id, aset s.lastCreatureIndexByPlayer sessionId 0, rfl⟩
  | succ n ih =>
    unfold pickLoop
    rcases hg : all[(((lastIdx + (i : Int)).emod (all.length : Int)).toNat)]? with _ | c
    · obtain ⟨ac, li, hrec⟩ := ih (i + 1)
      exact ⟨ac, li, by simp [hg, hrec]⟩
    · by_cases hs : (aget s.creatures c.id).isSome
      · refine ⟨c.id, aset s.lastCreatureIndexByPlayer sessionId
          (((((lastIdx + (i : Int)).emod (all.length : Int)).toNat : Nat) : Int)), ?_⟩
        simp [hg, hs]
      · obtain ⟨ac, li, hrec⟩ := ih (i + 1)
        exact ⟨ac, li, by simp [hg, hs, hrec]⟩

theorem pickNextCreatureForPlayer_shape (s : GameState) (sessionId : String) :
    ∃ ac li, pickNextCreatureForPlayer s sessionId =
      { s with activeCreatureId := ac, lastCreatureIndexByPlayer := li } := by
  unfold pickNextCreatureForPlayer
  by_cases h : ((s.creatures.filter (fun p => p.2.ownerSessionId == sessionId)).map Prod.snd).isEmpty
  · exact ⟨"", s.lastCreatureIndexByPlayer, by simp [h]⟩
  · simpa [h] using pickLoop_shape s sessionId _ _ 1 _

theorem clearCrates_shape (s : GameState) :
    ∃ cr cb, clearCrates s = { s with crates := cr, crateBodies := cb } := by
  unfold clearCrates
  generalize (s.crates.map Prod.fst) = ids
  induction ids generalizing s with
  | nil => exact ⟨s.crates, s.crateBodies, rfl⟩
  | cons id rest ih =>
    simp only [List.foldl_cons]
    rcases hg : aget s.crateBodies id with _ | b
    · have := ih { s with crates := adel s.crates id }
      simpa [hg] using this
    · have := ih { s with crates := adel s.crates id, crateBodies := adel s.crateBodies id }
      simpa [hg] using this

theorem spawnCrate_shape (s : GameState) :
    ∃ cr cb rg, spawnCrate s = { s with crates := cr, crateBodies := cb, rngCrate := rg } := by
  obtain ⟨cr0, cb0, hcc⟩ := clearCrates_shape s
  by_cases h : s.terrainPoints.length < 4
  · refine ⟨cr0, cb0, s.rngCrate, ?_⟩
    simp [spawnCrate, hcc, h]
  · refine ⟨aset cr0 (s.rngCrate.headD ("", 0)).1
      ⟨(s.rngCrate.headD ("", 0)).1,
       (spawnPick { s with crates := cr0, crateBodies := cb0 } (s.rngCrate.headD ("", 0)).2).1,
       -200, "grenade"⟩,
      aset cb0 (s.rngCrate.headD ("", 0)).1
      ⟨(spawnPick { s with crates := cr0, crateBodies := cb0 } (s.rngCrate.headD ("", 0)).2).1, -200⟩,
      s.rngCrate.tail, ?_⟩
    simp [spawnCrate, hcc, h]

theorem selectPlayer_shape (s : GameState) (cand : String) :
    ∃ a ac trm te li cr cb rg, selectPlayer s cand =
      { s with activePlayerSessionId := a, activeCreatureId := ac,
               turnRemainingMs := trm, turnEndsAt := te, lastCreatureIndexByPlayer := li,
               crates := cr, crateBodies := cb, rngCrate := rg } := by
  simp only [selectPlayer]
  obtain ⟨ac1, li1, hpick⟩ :=
    pickNextCreatureForPlayer_shape { s with activePlayerSessionId := cand } cand
  rw [hpick]
  obtain ⟨cr2, cb2, rg2, hspawn⟩ := spawnCrate_shape
    { s with activePlayerSessionId := cand, activeCreatureId := ac1,
             lastCreatureIndexByPlayer := li1,
             turnEndsAt := s.now + turnDurationMs, turnRemainingMs := turnDurationMs }
  exact ⟨cand, ac1, turnDurationMs, s.now + turnDurationMs, li1, cr2, cb2, rg2, hspawn⟩

theorem advanceLoop_shape (s : GameState) (players : List String) (cidx step rem : Nat) :
    ∃ w a ac trm te li cr cb rg, advanceLoop s players cidx step rem =
      { s with winnerSessionId := w, activePlayerSessionId := a, activeCreatureId := ac,
               turnRemainingMs := trm, turnEndsAt := te, lastCreatureIndexByPlayer := li,
               crates := cr, crateBodies := cb, rngCrate := rg } := by
  induction rem generalizing step with
  | zero =>
    exact ⟨s.winnerSessionId, "", "", 0, s.turnEndsAt, s.lastCreatureIndexByPlayer,
      s.crates, s.crateBodies, s.rngCrate, rfl⟩
  | succ n ih =>
    unfold advanceLoop
    by_cases hd : isDisconnected s (players.getD ((cidx + step) % players.length) "") = true
    · rw [if_pos hd]
      exact ih (step + 1)
    · rw [if_neg hd]
      obtain ⟨a, ac, trm, te, li, cr, cb, rg, hsel⟩ :=
        selectPlayer_shape s (players.getD ((cidx + step) % players.length) "")
      exact ⟨s.winnerSessionId, a, ac, trm, te, li, cr, cb, rg, hsel⟩

theorem advanceTurn_shape (s : GameState) :
    ∃ w a ac trm te li cr cb rg, advanceTurn s =
      { s with winnerSessionId := w, activePlayerSessionId := a, activeCreatureId := ac,
               turnRemainingMs := trm, turnEndsAt := te, lastCreatureIndexByPlayer := li,
               crates := cr, crateBodies := cb, rngCrate := rg } := by
  unfold advanceTurn
  by_cases hw : (checkWinCondition s).2
  · obtain ⟨w, a, ac, trm, hck⟩ := checkWinCondition_shape s
    exact ⟨w, a, ac, trm, s.turnEndsAt, s.lastCreatureIndexByPlayer, s.crates,
      s.crateBodies, s.rngCrate, by simp [hw, hck]⟩
  · by_cases hp : (distinctOwnersWithAlive s).isEmpty
    · exact ⟨s.winnerSessionId, "", "", 0, s.turnEndsAt, s.lastCreatureIndexByPlayer,
        s.crates, s.crateBodies, s.rngCrate, by simp [hw, hp]⟩
    · simpa [hw, hp] using advanceLoop_shape s (distinctOwnersWithAlive s)
        ((max 0 (jsIndexOf (distinctOwnersWithAlive s) s.activePlayerSessionId)).toNat)
        1 (distinctOwnersWithAlive s).length

end RAF

namespace RAF

theorem mem_keys_of_aget_some {α : Type} {l : List (String × α)} {k : String} {v : α}
    (h : aget l k = some v) : k ∈ l.map Prod.fst := by
  induction l with
  | nil => simp [aget] at h
  | cons p rest ih =>
    by_cases hp : p.1 = k
    · simp [hp]
    · simp only [aget, hp, if_false] at h
      simp [ih h]

/-! ### Crate singularity invariant -/



theorem crateInv_congr {s t : GameState} (hc : t.crates = s.crates)
    (hb : t.crateBodies = s.crateBodies) (h : CrateInv s) : CrateInv t := by
  unfold CrateInv at *
  rw [hc, hb]
  exact h

theorem clearCrates_empty_of_inv (s : GameState) (h : CrateInv s) :
    (clearCrates s).crates = [] ∧ (clearCrates s).crateBodies = [] := by
  obtain ⟨hkeys, hlen⟩ := h
  rcases hc : s.crates with _ | ⟨⟨k, c⟩, rest⟩
  · have hb : s.crateBodies = [] := by
      have h0 : s.crateBodies.map Prod.fst = [] := by rw [← hkeys, hc]; simp
      simpa using h0
    simp [clearCrates, hc, hb]
  · rcases rest with _ | ⟨q, rest2⟩
    · have hkb : s.crateBodies.map Prod.fst = [k] := by rw [← hkeys, hc]; simp
      obtain ⟨b, hb⟩ := map_fst_singleton hkb
      simp [clearCrates, hc, hb, adel, aget]
    · rw [hc] at hlen
      simp at hlen

theorem crateInv_spawnCrate (s : GameState) (h : CrateInv s) : CrateInv (spawnCrate s) := by
  obtain ⟨he1, he2⟩ := clearCrates_empty_of_inv s h
  obtain ⟨cr0, cb0, hcc⟩ := clearCrates_shape s
  have hcr0 : cr0 = [] := by rw [hcc] at he1; exact he1
  have hcb0 : cb0 = [] := by rw [hcc] at he2; exact he2
  subst hcr0
  subst hcb0
  unfold CrateInv
  by_cases ht : s.terrainPoints.length < 4
  · simp [spawnCrate, hcc, ht]
  · simp [spawnCrate, hcc, ht, aset]

theorem crateInv_checkWin (s : GameState) (h : CrateInv s) :
    CrateInv (checkWinCondition s).1 := by
  obtain ⟨w, a, ac, trm, hck⟩ := checkWinCondition_shape s
  rw [hck]
  exact crateInv_congr rfl rfl h

theorem crateInv_selectPlayer (s : GameState) (cand : String) (h : CrateInv s) :
    CrateInv (selectPlayer s cand) := by
  simp only [selectPlayer]
  obtain ⟨ac1, li1, hpick⟩ :=
    pickNextCreatureForPlayer_shape { s with activePlayerSessionId := cand } cand
  rw [hpick]
  exact crateInv_spawnCrate _ (crateInv_congr rfl rfl h)

theorem crateInv_advanceLoop (s : GameState) (players : List String) (cidx step rem : Nat)
    (h : CrateInv s) : CrateInv (advanceLoop s players cidx step rem) := by
  induction rem generalizing step with
  | zero => exact crateInv_congr rfl rfl h
  | succ n ih =>
    unfold advanceLoop
    by_cases hd : isDisconnected s (players.getD ((cidx + step) % players.length) "") = true
    · rw [if_pos hd]
      exact ih (step + 1)
    · rw [if_neg hd]
      exact crateInv_selectPlayer _ _ h

theorem crateInv_advanceTurn (s : GameState) (h : CrateInv s) : CrateInv (advanceTurn s) := by
  simp only [advanceTurn]
  by_cases hw : (checkWinCondition s).2 = true
  · rw [if_pos hw]
    exact crateInv_checkWin s h
  · rw [if_neg hw]
    by_cases hp : (distinctOwnersWithAlive s).isEmpty = true
    · rw [if_pos hp]
      exact crateInv_congr rfl rfl h
    · rw [if_neg hp]
      exact crateInv_advanceLoop _ _ _ _ _ h

end RAF

namespace RAF

/-! ### Crate invariant preservation for every observable step -/

theorem crateInv_handleInput (s : GameState) (sid : String) (m : InputState)
    (h : CrateInv s) : CrateInv (handleInput s sid m) := by
  unfold handleInput
  split
  · exact h
  · exact crateInv_congr rfl rfl h

theorem crateInv_handleJump (s : GameState) (sid : String)
    (h : CrateInv s) : CrateInv (handleJump s sid) := by
  unfold handleJump
  split
  · exact h
  · exact crateInv_congr rfl rfl h

theorem crateInv_handlePickupCrate (s : GameState) (sid crateId bySessionId : String)
    (h : CrateInv s) : CrateInv (handlePickupCrate s sid crateId bySessionId) := by
  unfold handlePickupCrate
  split
  · exact h
  split
  · exact h
  rcases hcr : aget s.crates crateId with _ | crate
  · exact h
  · simp only []
    rcases hcb : aget s.crateBodies crateId with _ | b
    · exfalso
      have hmem : crateId ∈ s.crates.map Prod.fst := mem_keys_of_aget_some hcr
      rw [h.1] at hmem
      have := aget_isSome_of_mem s.crateBodies crateId hmem
      rw [hcb] at this
      simp at this
    · refine ⟨?_, ?_⟩
      · show (adel s.crates crateId).map Prod.fst = (adel s.crateBodies crateId).map Prod.fst
        rw [adel_map_fst, adel_map_fst, h.1]
      · show (adel s.crates crateId).length ≤ 1
        exact le_trans (List.length_filter_le _ _) h.2

theorem crateInv_handleConsumeWeapon (s : GameState) (sid : String)
    (h : CrateInv s) : CrateInv (handleConsumeWeapon s sid) := by
  unfold handleConsumeWeapon
  split
  · exact h
  · split
    · exact h
    · exact crateInv_congr rfl rfl h

theorem crateInv_deleteLoop (s : GameState) (ids : List String)
    (h : CrateInv s) : CrateInv (deleteLoop s ids) := by
  induction ids generalizing s with
  | nil => exact h
  | cons id rest ih =>
    unfold deleteLoop
    apply ih
    by_cases hact : id = s.activeCreatureId
    · simp only [hact, if_pos rfl]
      exact crateInv_advanceTurn _ (crateInv_congr rfl rfl h)
    · rw [if_neg hact]
      exact crateInv_checkWin _ (crateInv_congr rfl rfl h)

theorem crateInv_handleApplyDamage (s : GameState) (sid : String)
    (hits : List (String × Int)) (h : CrateInv s) :
    CrateInv (handleApplyDamage s sid hits) := by
  unfold handleApplyDamage
  split
  · exact h
  · exact crateInv_deleteLoop _ _ (crateInv_congr rfl rfl h)

theorem crateInv_handleTakeover (s : GameState) (sid target : String)
    (h : CrateInv s) : CrateInv (handleTakeover s sid target) := by
  simp only [handleTakeover]
  split
  · exact h
  · split
    · exact h
    · split
      · exact h
      · split <;> split <;> split <;> exact crateInv_congr rfl rfl h

theorem crateInv_handleKill (s : GameState) (sid creatureId : String)
    (h : CrateInv s) : CrateInv (handleKill s sid creatureId) := by
  simp only [handleKill]
  split
  · exact h
  · split
    · exact h
    · split
      · exact crateInv_advanceTurn _ (crateInv_congr rfl rfl h)
      · exact crateInv_checkWin _ (crateInv_congr rfl rfl h)

theorem crateInv_handleEndTurn (s : GameState) (sid : String)
    (h : CrateInv s) : CrateInv (handleEndTurn s sid) := by
  unfold handleEndTurn
  split
  · exact crateInv_advanceTurn _ h
  · exact h

theorem addJoinCreature_crates (s : GameState) (sid color : String) (spec : CreatureSpec) :
    (addJoinCreature s sid color spec).crates = s.crates ∧
    (addJoinCreature s sid color spec).crateBodies = s.crateBodies :=
  ⟨rfl, rfl⟩

set_option maxHeartbeats 1000000 in
theorem crateInv_onJoin (s : GameState) (sid name : String) (c1 c2 c3 : CreatureSpec)
    (h : CrateInv s) : CrateInv (onJoin s sid name c1 c2 c3) := by
  simp only [onJoin]
  split <;> (try split) <;>
    first
      | exact crateInv_selectPlayer _ _ (crateInv_congr rfl rfl h)
      | exact crateInv_congr rfl rfl h

theorem crateInv_onLeave (s : GameState) (sid : String)
    (h : CrateInv s) : CrateInv (onLeave s sid) := by
  simp only [onLeave]
  split <;> (try split) <;>
    first
      | exact crateInv_congr rfl rfl h
      | (simp only [onLeaveTail]
         split
         · exact crateInv_advanceTurn _ (crateInv_congr rfl rfl h)
         · exact crateInv_checkWin _ (crateInv_congr rfl rfl h))

theorem crateInv_tickTimeoutPhase (s : GameState) (h : CrateInv s) :
    CrateInv (tickTimeoutPhase s) := by
  simp only [tickTimeoutPhase]
  split
  · exact crateInv_advanceTurn _ (crateInv_congr rfl rfl h)
  · exact crateInv_congr rfl rfl h

theorem crateInv_tickDisconnectSkipPhase (s : GameState) (h : CrateInv s) :
    CrateInv (tickDisconnectSkipPhase s) := by
  unfold tickDisconnectSkipPhase
  split
  · exact crateInv_advanceTurn _ h
  · exact h

theorem victimsFold_crates (ids : List String) (s : GameState) :
    ((ids.foldl (fun t id => removeCreatureBody { t with creatures := adel t.creatures id } id) s)).crates = s.crates ∧
    ((ids.foldl (fun t id => removeCreatureBody { t with creatures := adel t.creatures id } id) s)).crateBodies = s.crateBodies := by
  induction ids generalizing s with
  | nil => exact ⟨rfl, rfl⟩
  | cons id rest ih =>
    simp only [List.foldl_cons]
    exact ih _

theorem crateInv_expireOne (s : GameState) (sid : String) (h : CrateInv s) :
    CrateInv (expireOne s sid) := by
  simp only [expireOne]
  obtain ⟨hc, hb⟩ := victimsFold_crates
    ((s.creatures.filter (fun p => p.2.ownerSessionId == sid)).map (fun p => p.2.id)) s
  split
  · exact crateInv_advanceTurn _ (crateInv_congr (by rw [hc]) (by rw [hb]) h)
  · exact crateInv_congr (by rw [hc]) (by rw [hb]) h

theorem crateInv_tickExpiryPhase (s : GameState) (h : CrateInv s) :
    CrateInv (tickExpiryPhase s) := by
  unfold tickExpiryPhase
  generalize (s.disconnectedUntil.filter (fun p => p.2 ≤ s.now)).map Prod.fst = expired
  induction expired generalizing s with
  | nil => exact h
  | cons e rest ih =>
    simp only [List.foldl_cons]
    exact ih _ (crateInv_expireOne s e h)

theorem crateInv_tickInputPhase (s : GameState) (h : CrateInv s) :
    CrateInv (tickInputPhase s) := by
  unfold tickInputPhase
  split
  · split
    · split
      · exact crateInv_congr rfl rfl h
      · exact h
    · exact h
  · exact h

theorem map_fst_keyed_map {α β : Type} (l : List (String × α)) (f : String → α → β) :
    ((l.map (fun p => (p.1, f p.1 p.2))).map Prod.fst) = l.map Prod.fst := by
  induction l with
  | nil => rfl
  | cons p rest ih => simp [ih]

theorem crateInv_tickPhysicsPhase (s : GameState) (posFn : String → Int × Int)
    (h : CrateInv s) : CrateInv (tickPhysicsPhase s posFn) := by
  unfold tickPhysicsPhase
  refine ⟨?_, ?_⟩
  · show s.crates.map Prod.fst =
      ((s.crateBodies.map (fun p => (p.1, (⟨(posFn p.1).1, (posFn p.1).2⟩ : Body)))).map Prod.fst)
    rw [map_fst_keyed_map s.crateBodies (fun k _ => (⟨(posFn k).1, (posFn k).2⟩ : Body))]
    exact h.1
  · exact h.2

theorem crateInv_tickMirrorPhase (s : GameState) (h : CrateInv s) :
    CrateInv (tickMirrorPhase s) := by
  unfold tickMirrorPhase
  exact crateInv_congr rfl rfl h

theorem crateInv_drownLoop (s : GameState) (ids : List String)
    (h : CrateInv s) : CrateInv (drownLoop s ids) := by
  induction ids generalizing s with
  | nil => exact h
  | cons id rest ih =>
    unfold drownLoop
    apply ih
    by_cases hact : id = s.activeCreatureId
    · simp only [hact, if_pos rfl]
      exact crateInv_advanceTurn _ (crateInv_congr rfl rfl h)
    · rw [if_neg hact]
      exact crateInv_congr rfl rfl h

theorem crateInv_tickDrownPhase (s : GameState) (h : CrateInv s) :
    CrateInv (tickDrownPhase s) :=
  crateInv_drownLoop s (drownedIds s) h

theorem crateInv_tickSnapshotPhase (s : GameState) (h : CrateInv s) :
    CrateInv (tickSnapshotPhase s) := by
  unfold tickSnapshotPhase
  split
  · exact crateInv_congr rfl rfl h
  · exact h

theorem crateInv_fixedTick (s : GameState) (posFn : String → Int × Int)
    (h : CrateInv s) : CrateInv (fixedTick s posFn) := by
  unfold fixedTick
  exact crateInv_tickSnapshotPhase _ (crateInv_tickDrownPhase _ (crateInv_tickMirrorPhase _
    (crateInv_tickPhysicsPhase _ _ (crateInv_tickInputPhase _ (crateInv_tickExpiryPhase _
    (crateInv_tickDisconnectSkipPhase _ (crateInv_tickTimeoutPhase _ h)))))))

theorem crateInv_step {s t : GameState} (hstep : Step s t) (h : CrateInv s) : CrateInv t := by
  cases hstep with
  | msgInput sid m => exact crateInv_handleInput s sid m h
  | msgJump sid => exact crateInv_handleJump s sid h
  | msgPickupCrate sid crateId bySessionId => exact crateInv_handlePickupCrate s sid crateId bySessionId h
  | msgConsumeWeapon sid => exact crateInv_handleConsumeWeapon s sid h
  | msgApplyDamage sid hits => exact crateInv_handleApplyDamage s sid hits h
  | msgTakeover sid target => exact crateInv_handleTakeover s sid target h
  | msgKill sid creatureId => exact crateInv_handleKill s sid creatureId h
  | msgEndTurn sid => exact crateInv_handleEndTurn s sid h
  | join sid name c1 c2 c3 => exact crateInv_onJoin s sid name c1 c2 c3 h
  | leave sid => exact crateInv_onLeave s sid h
  | tick posFn => exact crateInv_fixedTick s posFn h
  | timePasses dt => exact crateInv_congr rfl rfl h

theorem crateInv_initState (tp : List Int) (t0 : Nat) (rng : List (String × Nat)) :
    CrateInv (initState tp t0 rng) := ⟨rfl, by simp [initState]⟩

theorem crateInv_reachable {tp : List Int} {t0 : Nat} {rng : List (String × Nat)}
    {s : GameState} (h : Reachable tp t0 rng s) : CrateInv s := by
  induction h with
  | refl => exact crateInv_initState tp t0 rng
  | tail _ hstep ih => exact crateInv_step hstep ih

end RAF

namespace RAF

/-! ### Per-field frame corollaries -/

theorem spawnCrate_fields (s : GameState) :
    (spawnCrate s).creatures = s.creatures ∧
    (spawnCrate s).activePlayerSessionId = s.activePlayerSessionId ∧
    (spawnCrate s).activeCreatureId = s.activeCreatureId ∧
    (spawnCrate s).turnRemainingMs = s.turnRemainingMs ∧
    (spawnCrate s).turnEndsAt = s.turnEndsAt ∧
    (spawnCrate s).joinOrder = s.joinOrder ∧
    (spawnCrate s).disconnectedUntil = s.disconnectedUntil ∧
    (spawnCrate s).now = s.now ∧
    (spawnCrate s).playerNames = s.playerNames ∧
    (spawnCrate s).weaponsByPlayer = s.weaponsByPlayer ∧
    (spawnCrate s).winnerSessionId = s.winnerSessionId ∧
    (spawnCrate s).creatureBodies = s.creatureBodies ∧
    (spawnCrate s).lastCreatureIndexByPlayer = s.lastCreatureIndexByPlayer := by
  obtain ⟨cr, cb, rg, h⟩ := spawnCrate_shape s
  rw [h]
  exact ⟨rfl, rfl, rfl, rfl, rfl, rfl, rfl, rfl, rfl, rfl, rfl, rfl, rfl⟩

theorem pickNext_fields (s : GameState) (sid : String) :
    (pickNextCreatureForPlayer s sid).creatures = s.creatures ∧
    (pickNextCreatureForPlayer s sid).activePlayerSessionId = s.activePlayerSessionId ∧
    (pickNextCreatureForPlayer s sid).turnRemainingMs = s.turnRemainingMs ∧
    (pickNextCreatureForPlayer s sid).turnEndsAt = s.turnEndsAt ∧
    (pickNextCreatureForPlayer s sid).joinOrder = s.joinOrder ∧
    (pickNextCreatureForPlayer s sid).disconnectedUntil = s.disconnectedUntil ∧
    (pickNextCreatureForPlayer s sid).now = s.now ∧
    (pickNextCreatureForPlayer s sid).playerNames = s.playerNames ∧
    (pickNextCreatureForPlayer s sid).weaponsByPlayer = s.weaponsByPlayer ∧
    (pickNextCreatureForPlayer s sid).winnerSessionId = s.winnerSessionId ∧
    (pickNextCreatureForPlayer s sid).creatureBodies = s.creatureBodies := by
  obtain ⟨ac, li, h⟩ := pickNextCreatureForPlayer_shape s sid
  rw [h]
  exact ⟨rfl, rfl, rfl, rfl, rfl, rfl, rfl, rfl, rfl, rfl, rfl⟩

theorem checkWin_fields (s : GameState) :
    (checkWinCondition s).1.creatures = s.creatures ∧
    (checkWinCondition s).1.creatureBodies = s.creatureBodies ∧
    (checkWinCondition s).1.joinOrder = s.joinOrder ∧
    (checkWinCondition s).1.disconnectedUntil = s.disconnectedUntil ∧
    (checkWinCondition s).1.now = s.now ∧
    (checkWinCondition s).1.playerNames = s.playerNames ∧
    (checkWinCondition s).1.weaponsByPlayer = s.weaponsByPlayer := by
  obtain ⟨w, a, ac, trm, h⟩ := checkWinCondition_shape s
  rw [h]
  exact ⟨rfl, rfl, rfl, rfl, rfl, rfl, rfl⟩

theorem advanceTurn_fields (s : GameState) :
    (advanceTurn s).creatures = s.creatures ∧
    (advanceTurn s).creatureBodies = s.creatureBodies ∧
    (advanceTurn s).joinOrder = s.joinOrder ∧
    (advanceTurn s).disconnectedUntil = s.disconnectedUntil ∧
    (advanceTurn s).now = s.now ∧
    (advanceTurn s).playerNames = s.playerNames ∧
    (advanceTurn s).weaponsByPlayer = s.weaponsByPlayer := by
  obtain ⟨w, a, ac, trm, te, li, cr, cb, rg, h⟩ := advanceTurn_shape s
  rw [h]
  exact ⟨rfl, rfl, rfl, rfl, rfl, rfl, rfl⟩

/-- The winner field written by `checkWinCondition`. -/
theorem checkWin_winner (s : GameState) :
    (checkWinCondition s).1.winnerSessionId =
      (if (distinctOwnersWithAlive s).length ≤ 1
       then (distinctOwnersWithAlive s).headD ""
       else s.winnerSessionId) := by
  by_cases h : (distinctOwnersWithAlive s).length ≤ 1 <;>
    simp [checkWinCondition, h]

/-! ### Damage-loop characterisation (applyDamage handler, lines 141-158) -/



theorem damageLoop_fst_cons (cs : List (String × Creature)) (hid : String) (dmg : Int)
    (rest : List (String × Int)) (c : Creature) (hc : aget cs hid = some c) :
    (damageLoop cs ((hid, dmg) :: rest)).1 =
      (damageLoop (aset cs hid { c with hp := max 0 (c.hp - clampDamage dmg) }) rest).1 := by
  simp only [damageLoop, hc]
  split <;> rfl

theorem damageLoop_snd_cons (cs : List (String × Creature)) (hid : String) (dmg : Int)
    (rest : List (String × Int)) (c : Creature) (hc : aget cs hid = some c) :
    (damageLoop cs ((hid, dmg) :: rest)).2 =
      (if max 0 (c.hp - clampDamage dmg) ≤ 0
       then ({ c with hp := max 0 (c.hp - clampDamage dmg) } : Creature).id ::
         (damageLoop (aset cs hid { c with hp := max 0 (c.hp - clampDamage dmg) }) rest).2
       else (damageLoop (aset cs hid { c with hp := max 0 (c.hp - clampDamage dmg) }) rest).2) := by
  simp only [damageLoop, hc]
  split <;> simp_all

theorem damageLoop_lookup (cs : List (String × Creature)) (hits : List (String × Int))
    (hnodup : (hits.map Prod.fst).Nodup) (k : String) :
    aget (damageLoop cs hits).1 k =
      (match aget cs k, aget hits k with
       | some c, some dmg => some { c with hp := max 0 (c.hp - clampDamage dmg) }
       | some c, none => some c
       | none, _ => none) := by
  induction hits generalizing cs with
  | nil =>
    rcases h : aget cs k with _ | c <;> simp [damageLoop, aget, h]
  | cons hit rest ih =>
    obtain ⟨hid, dmg⟩ := hit
    have hpair : (∀ x : Int, (hid, x) ∉ rest) ∧ (rest.map Prod.fst).Nodup := by
      simpa using hnodup
    have hnm : hid ∉ rest.map Prod.fst := by
      intro hmem
      obtain ⟨p, hp, hfst⟩ := List.mem_map.mp hmem
      obtain ⟨a, b⟩ := p
      cases hfst
      exact hpair.1 b hp
    have hnd : (rest.map Prod.fst).Nodup := hpair.2
    rcases hc : aget cs hid with _ | c
    · have hstep : damageLoop cs ((hid, dmg) :: rest) = damageLoop cs rest := by
        simp only [damageLoop, hc]
      rw [hstep, ih cs hnd]
      by_cases hk : k = hid
      · subst hk
        have hrest : aget rest k = none := aget_eq_none_of_not_mem rest k hnm
        simp [aget, hc, hrest]
      · have hk' : ¬ hid = k := fun hh => hk hh.symm
        have hhits : aget ((hid, dmg) :: rest) k = aget rest k := by
          simp [aget, hk']
        rw [hhits]
    · rw [damageLoop_fst_cons cs hid dmg rest c hc,
        ih (aset cs hid { c with hp := max 0 (c.hp - clampDamage dmg) }) hnd]
      by_cases hk : k = hid
      · subst hk
        have hrest : aget rest k = none := aget_eq_none_of_not_mem rest k hnm
        rw [aget_aset_self, hc]
        simp [aget, hrest]
      · have hk' : ¬ hid = k := fun hh => hk hh.symm
        rw [aget_aset_ne cs hid k _ hk]
        have hhits : aget ((hid, dmg) :: rest) k = aget rest k := by
          simp [aget, hk']
        rw [hhits]

theorem keyConsistent_aset (cs : List (String × Creature)) (k : String) (c : Creature)
    (hk : c.id = k) (h : KeyConsistent cs) : KeyConsistent (aset cs k c) := by
  intro k' c' hg
  by_cases hkk : k' = k
  · subst hkk
    rw [aget_aset_self] at hg
    cases hg
    exact hk
  · rw [aget_aset_ne cs k k' c hkk] at hg
    exact h k' c' hg

theorem damageLoop_toDelete (cs : List (String × Creature)) (hits : List (String × Int))
    (hnodup : (hits.map Prod.fst).Nodup) (hkeys : KeyConsistent cs) (k : String) :
    k ∈ (damageLoop cs hits).2 ↔
      ∃ c dmg, aget cs k = some c ∧ aget hits k = some dmg ∧ c.hp ≤ clampDamage dmg := by
  induction hits generalizing cs with
  | nil =>
    simp [damageLoop, aget]
  | cons hit rest ih =>
    obtain ⟨hid, dmg⟩ := hit
    have hpair : (∀ x : Int, (hid, x) ∉ rest) ∧ (rest.map Prod.fst).Nodup := by
      simpa using hnodup
    have hnm : hid ∉ rest.map Prod.fst := by
      intro hmem
      obtain ⟨p, hp, hfst⟩ := List.mem_map.mp hmem
      obtain ⟨a, b⟩ := p
      cases hfst
      exact hpair.1 b hp
    have hnd : (rest.map Prod.fst).Nodup := hpair.2
    rcases hc : aget cs hid with _ | c
    · have hstep : damageLoop cs ((hid, dmg) :: rest) = damageLoop cs rest := by
        simp only [damageLoop, hc]
      rw [hstep, ih cs hnd hkeys]
      constructor
      · rintro ⟨c', dmg', h1, h2, h3⟩
        refine ⟨c', dmg', h1, ?_, h3⟩
        have hk : ¬ hid = k := by
          intro hh
          subst hh
          rw [hc] at h1
          cases h1
        simp [aget, hk, h2]
      · rintro ⟨c', dmg', h1, h2, h3⟩
        have hk : ¬ hid = k := by
          intro hh
          subst hh
          rw [hc] at h1
          cases h1
        refine ⟨c', dmg', h1, ?_, h3⟩
        simpa [aget, hk] using h2
    · have hcid : c.id = hid := hkeys hid c hc
      set c1 : Creature := { c with hp := max 0 (c.hp - clampDamage dmg) } with hc1
      have hkeys1 : KeyConsistent (aset cs hid c1) :=
        keyConsistent_aset cs hid c1 (by rw [hc1]; exact hcid) hkeys
      rw [damageLoop_snd_cons cs hid dmg rest c hc]
      by_cases hk : k = hid
      · subst hk
        have hrest0 : aget rest k = none := aget_eq_none_of_not_mem rest k hnm
        have hres : k ∈ (damageLoop (aset cs k c1) rest).2 ↔ False := by
          rw [ih (aset cs k c1) hnd hkeys1]
          constructor
          · rintro ⟨c', dmg', h1, h2, h3⟩
            rw [hrest0] at h2
            cases h2
          · exact False.elim
        constructor
        · intro hmem
          by_cases hdie : max 0 (c.hp - clampDamage dmg) ≤ 0
          · refine ⟨c, dmg, hc, by simp [aget], ?_⟩
            have := max_le_iff.mp hdie
            omega
          · rw [if_neg hdie] at hmem
            exact (hres.mp hmem).elim
        · rintro ⟨c', dmg', h1, h2, h3⟩
          rw [hc] at h1
          have hceq : c = c' := by injection h1
          subst hceq
          have hdmg : dmg' = dmg := by
            have hh : aget ((k, dmg) :: rest) k = some dmg := by simp [aget]
            rw [hh] at h2
            injection h2 with h2'
            exact h2'.symm
          rw [hdmg] at h3
          have hdie : max 0 (c.hp - clampDamage dmg) ≤ 0 := by
            apply max_le_iff.mpr
            exact ⟨le_refl 0, by omega⟩
          rw [if_pos hdie]
          have hcid1 : c1.id = k := by rw [hc1]; exact hcid
          rw [hcid1]
          exact List.mem_cons_self k _
      · have hk' : ¬ hid = k := fun hh => hk hh.symm
        have hhits : aget ((hid, dmg) :: rest) k = aget rest k := by
          simp [aget, hk']
        have hmain : k ∈ (damageLoop (aset cs hid c1) rest).2 ↔
            ∃ c' dmg', aget cs k = some c' ∧ aget rest k = some dmg' ∧
              c'.hp ≤ clampDamage dmg' := by
          rw [ih (aset cs hid c1) hnd hkeys1]
          constructor
          · rintro ⟨c', dmg', h1, h2, h3⟩
            rw [aget_aset_ne cs hid k c1 hk] at h1
            exact ⟨c', dmg', h1, h2, h3⟩
          · rintro ⟨c', dmg', h1, h2, h3⟩
            refine ⟨c', dmg', ?_, h2, h3⟩
            rw [aget_aset_ne cs hid k c1 hk]
            exact h1
        have hne : k ≠ c1.id := by
          rw [hc1]
          simpa [hcid] using hk
        constructor
        · intro hmem
          have hmem2 : k ∈ (damageLoop (aset cs hid c1) rest).2 := by
            by_cases hdie : max 0 (c.hp - clampDamage dmg) ≤ 0
            · rw [if_pos hdie] at hmem
              rcases List.mem_cons.mp hmem with h | h
              · exact absurd h hne
              · exact h
            · rw [if_neg hdie] at hmem
              exact hmem
          rw [hhits]
          exact hmain.mp hmem2
        · intro hex
          have hmem2 := hmain.mpr (by rw [← hhits]; exact hex)
          by_cases hdie : max 0 (c.hp - clampDamage dmg) ≤ 0
          · rw [if_pos hdie]
            exact List.mem_cons_of_mem _ hmem2
          · rw [if_neg hdie]
            exact hmem2

end RAF

namespace RAF

theorem deleteLoop_lookup (ids : List String) (s : GameState) (k : String) :
    aget (deleteLoop s ids).creatures k = (if k ∈ ids then none else aget s.creatures k) ∧
    aget (deleteLoop s ids).creatureBodies k =
      (if k ∈ ids then none else aget s.creatureBodies k) := by
  induction ids generalizing s with
  | nil => simp [deleteLoop]
  | cons id rest ih =>
    simp only [deleteLoop]
    have hAT := advanceTurn_fields (removeCreatureBody { s with creatures := adel s.creatures id } id)
    have hCW := checkWin_fields (removeCreatureBody { s with creatures := adel s.creatures id } id)
    obtain ⟨ha, hb⟩ := ih (if id = s.activeCreatureId
      then advanceTurn (removeCreatureBody { s with creatures := adel s.creatures id } id)
      else (checkWinCondition (removeCreatureBody { s with creatures := adel s.creatures id } id)).1)
    rw [ha, hb]
    have hcrea : (if id = s.activeCreatureId
        then advanceTurn (removeCreatureBody { s with creatures := adel s.creatures id } id)
        else (checkWinCondition (removeCreatureBody { s with creatures := adel s.creatures id } id)).1).creatures =
        adel s.creatures id := by
      split
      · rw [hAT.1]
        rfl
      · rw [hCW.1]
        rfl
    have hbody : (if id = s.activeCreatureId
        then advanceTurn (removeCreatureBody { s with creatures := adel s.creatures id } id)
        else (checkWinCondition (removeCreatureBody { s with creatures := adel s.creatures id } id)).1).creatureBodies =
        adel s.creatureBodies id := by
      split
      · rw [hAT.2.1]
        rfl
      · rw [hCW.2.1]
        rfl
    rw [hcrea, hbody]
    by_cases hk : k = id
    · subst hk
      simp [aget_adel_self]
    · have h1 := aget_adel_ne s.creatures id k hk
      have h2 := aget_adel_ne s.creatureBodies id k hk
      simp [List.mem_cons, hk, h1, h2]

end RAF

namespace RAF

/-! ### Round-robin rotation (endTurn) -/





theorem owners_eq_joinOrder (s : GameState)
    (h : ∀ sid ∈ s.joinOrder, s.creatures.any (fun p => p.2.ownerSessionId == sid) = true) :
    distinctOwnersWithAlive s = s.joinOrder := by
  unfold distinctOwnersWithAlive
  exact List.filter_eq_self.mpr h

theorem getD_eq_get (l : List String) (n : Nat) (d : String) (h : n < l.length) :
    l.getD n d = l.get ⟨n, h⟩ := by
  simp [List.getD_eq_getElem?_getD, List.getElem?_eq_getElem h, List.get_eq_getElem]

theorem jsIndexOfAux_get (l : List String) (hnd : l.Nodup) (i : Nat) (h : i < l.length)
    (base : Int) : jsIndexOfAux (l.get ⟨i, h⟩) l base = base + i := by
  induction l generalizing i base with
  | nil => simp at h
  | cons a rest ih =>
    rcases i with _ | j
    · simp [jsIndexOfAux]
    · have hj : j < rest.length := by simpa using h
      have hnotmem : a ∉ rest := (List.nodup_cons.mp hnd).1
      have hget : (a :: rest).get ⟨j + 1, h⟩ = rest.get ⟨j, hj⟩ := rfl
      rw [hget]
      have hne : ¬ a = rest.get ⟨j, hj⟩ := by
        intro hh
        exact hnotmem (hh ▸ rest.get_mem j hj)
      unfold jsIndexOfAux
      rw [if_neg hne, ih (List.nodup_cons.mp hnd).2 j hj (base + 1)]
      push_cast
      ring

theorem jsIndexOf_get (l : List String) (hnd : l.Nodup) (i : Nat) (h : i < l.length) :
    jsIndexOf l (l.get ⟨i, h⟩) = (i : Int) := by
  unfold jsIndexOf
  rw [jsIndexOfAux_get l hnd i h 0]
  ring

end RAF

namespace RAF

theorem selectPlayer_fields (s : GameState) (cand : String) :
    (selectPlayer s cand).activePlayerSessionId = cand ∧
    (selectPlayer s cand).turnRemainingMs = turnDurationMs ∧
    (selectPlayer s cand).turnEndsAt = s.now + turnDurationMs ∧
    (selectPlayer s cand).joinOrder = s.joinOrder ∧
    (selectPlayer s cand).creatures = s.creatures ∧
    (selectPlayer s cand).disconnectedUntil = s.disconnectedUntil ∧
    (selectPlayer s cand).now = s.now := by
  simp only [selectPlayer]
  obtain ⟨ac1, li1, hpick⟩ :=
    pickNextCreatureForPlayer_shape { s with activePlayerSessionId := cand } cand
  rw [hpick]
  obtain ⟨cr, cb, rg, hsp⟩ := spawnCrate_shape
    { s with activePlayerSessionId := cand,
             activeCreatureId := ac1, lastCreatureIndexByPlayer := li1,
             turnEndsAt := s.now + turnDurationMs, turnRemainingMs := turnDurationMs }
  exact ⟨(congrArg GameState.activePlayerSessionId hsp).trans rfl,
         (congrArg GameState.turnRemainingMs hsp).trans rfl,
         (congrArg GameState.turnEndsAt hsp).trans rfl,
         (congrArg GameState.joinOrder hsp).trans rfl,
         (congrArg GameState.creatures hsp).trans rfl,
         (congrArg GameState.disconnectedUntil hsp).trans rfl,
         (congrArg GameState.now hsp).trans rfl⟩

theorem advanceLoop_pos (s : GameState) (players : List String) (cidx step rem : Nat)
    (h : 0 < rem) :
    advanceLoop s players cidx step rem =
      (if isDisconnected s (players.getD ((cidx + step) % players.length) "")
       then advanceLoop s players cidx (step + 1) (rem - 1)
       else selectPlayer s (players.getD ((cidx + step) % players.length) "")) := by
  obtain ⟨n, rfl⟩ : ∃ n, rem = n + 1 := ⟨rem - 1, by omega⟩
  simp only [advanceLoop, Nat.add_sub_cancel]

theorem endTurnStep_rotates (s : GameState) (h : EligibleRound s) (i : Nat)
    (hi : i < s.joinOrder.length)
    (hact : s.activePlayerSessionId = s.joinOrder.getD i "") :
    (endTurnStep s).activePlayerSessionId =
      s.joinOrder.getD ((i + 1) % s.joinOrder.length) "" ∧
    (endTurnStep s).joinOrder = s.joinOrder ∧
    (endTurnStep s).creatures = s.creatures ∧
    (endTurnStep s).disconnectedUntil = s.disconnectedUntil ∧
    (endTurnStep s).now = s.now ∧
    (endTurnStep s).turnRemainingMs = turnDurationMs ∧
    (endTurnStep s).turnEndsAt = s.now + turnDurationMs := by
  obtain ⟨hnd, hlen, hmem, halive, hconn⟩ := h
  have howners : distinctOwnersWithAlive s = s.joinOrder := owners_eq_joinOrder s halive
  have hlen0 : 0 < s.joinOrder.length := by omega
  unfold endTurnStep handleEndTurn
  rw [if_pos rfl]
  have hcw : checkWinCondition s = (s, false) := by
    unfold checkWinCondition
    rw [howners, if_neg (by omega)]
  simp only [advanceTurn, hcw, howners]
  have hne : s.joinOrder.isEmpty = false := by
    cases hjo : s.joinOrder with
    | nil => rw [hjo] at hlen0; simp at hlen0
    | cons a t => simp
  rw [hne]
  simp only [Bool.false_eq_true, if_false]
  have hidx : jsIndexOf s.joinOrder s.activePlayerSessionId = (i : Int) := by
    rw [hact, getD_eq_get s.joinOrder i "" hi]
    exact jsIndexOf_get s.joinOrder hnd i hi
  rw [hidx]
  have hmax : (max 0 ((i : Int))).toNat = i := by omega
  rw [hmax]
  rw [advanceLoop_pos s s.joinOrder i 1 s.joinOrder.length hlen0]
  have hmod : (i + 1) % s.joinOrder.length < s.joinOrder.length := Nat.mod_lt _ hlen0
  have hdisc : isDisconnected s (s.joinOrder.getD ((i + 1) % s.joinOrder.length) "") = false := by
    rw [getD_eq_get s.joinOrder _ "" hmod]
    exact hconn _ (s.joinOrder.get_mem _ hmod)
  rw [hdisc]
  simp only [Bool.false_eq_true, if_false]
  have hsel := selectPlayer_fields s (s.joinOrder.getD ((i + 1) % s.joinOrder.length) "")
  exact ⟨hsel.1, hsel.2.2.2.1, hsel.2.2.2.2.1, hsel.2.2.2.2.2.1, hsel.2.2.2.2.2.2,
    hsel.2.1, hsel.2.2.1⟩

end RAF

namespace RAF

theorem isDisconnected_congr {s t : GameState} (hd : t.disconnectedUntil = s.disconnectedUntil)
    (hn : t.now = s.now) (sid : String) : isDisconnected t sid = isDisconnected s sid := by
  unfold isDisconnected
  rw [hd, hn]

theorem endTurnStep_iterate (s : GameState) (h : EligibleRound s) (i : Nat)
    (hi : i < s.joinOrder.length)
    (hact : s.activePlayerSessionId = s.joinOrder.getD i "") (k : Nat) :
    (endTurnStep^[k] s).activePlayerSessionId =
        s.joinOrder.getD ((i + k) % s.joinOrder.length) "" ∧
    (endTurnStep^[k] s).joinOrder = s.joinOrder ∧
    (endTurnStep^[k] s).creatures = s.creatures ∧
    (endTurnStep^[k] s).disconnectedUntil = s.disconnectedUntil ∧
    (endTurnStep^[k] s).now = s.now ∧
    (1 ≤ k → (endTurnStep^[k] s).turnRemainingMs = turnDurationMs ∧
             (endTurnStep^[k] s).turnEndsAt = s.now + turnDurationMs) := by
  induction k with
  | zero =>
    refine ⟨?_, rfl, rfl, rfl, rfl, by omega⟩
    rw [Nat.add_zero, Nat.mod_eq_of_lt hi]
    exact hact
  | succ k ih =>
    obtain ⟨hA, hJ, hC, hD, hN, _⟩ := ih
    obtain ⟨hnd, hlen, hmem, halive, hconn⟩ := h
    have hlen0 : 0 < s.joinOrder.length := by omega
    set t := endTurnStep^[k] s with ht
    have hmod : (i + k) % s.joinOrder.length < s.joinOrder.length := Nat.mod_lt _ hlen0
    have hT : EligibleRound t := by
      refine ⟨by rw [hJ]; exact hnd, by rw [hJ]; exact hlen, ?_, ?_, ?_⟩
      · rw [hA, hJ, getD_eq_get s.joinOrder _ "" hmod]
        exact s.joinOrder.get_mem _ hmod
      · intro sid hsid
        rw [hC]
        exact halive sid (by rw [hJ] at hsid; exact hsid)
      · intro sid hsid
        rw [isDisconnected_congr hD hN sid]
        exact hconn sid (by rw [hJ] at hsid; exact hsid)
    have hactT : t.activePlayerSessionId = t.joinOrder.getD ((i + k) % s.joinOrder.length) "" := by
      rw [hA, hJ]
    have hiT : (i + k) % s.joinOrder.length < t.joinOrder.length := by
      rw [hJ]
      exact hmod
    have hrot := endTurnStep_rotates t hT ((i + k) % s.joinOrder.length) hiT hactT
    have hstep : endTurnStep^[k + 1] s = endTurnStep t := by
      rw [ht]
      exact Function.iterate_succ_apply' endTurnStep k s
    rw [hstep]
    have hmodarith : ((i + k) % s.joinOrder.length + 1) % s.joinOrder.length
        = (i + (k + 1)) % s.joinOrder.length := by
      have h1 : (1 : Nat) % s.joinOrder.length = 1 := Nat.mod_eq_of_lt (by omega)
      conv_rhs => rw [show i + (k + 1) = (i + k) + 1 by ring, Nat.add_mod, h1]
    refine ⟨?_, ?_, ?_, ?_, ?_, ?_⟩
    · rw [hrot.1, hJ, hmodarith]
    · rw [hrot.2.1, hJ]
    · rw [hrot.2.2.1, hC]
    · rw [hrot.2.2.2.1, hD]
    · rw [hrot.2.2.2.2.1, hN]
    · intro _
      exact ⟨hrot.2.2.2.2.2.1, by rw [hrot.2.2.2.2.2.2, hN]⟩

end RAF

namespace RAF



/-! ### Claim theorems -/

/-- C1: the claim states that every turn-scoped action from a non-active
session is ignored, in particular that `consumeWeapon` from a non-active
session clears no weapon slot and leaves the turn clock alone.  The code has
no active-session check in the `consumeWeapon` handler (lines 126-135): a
non-active session `p2` holding a weapon gets its slot cleared and the
running turn's remaining time overridden to the 5-second retreat window.
This theorem evaluates the handler at that failing input. -/
theorem consumeWeapon_nonactive_mutates :
    exA.activePlayerSessionId = "p1" ∧
    aget exA.weaponsByPlayer "p2" = some "grenade" ∧
    exA.turnRemainingMs = 30000 ∧
    aget (handleConsumeWeapon exA "p2").weaponsByPlayer "p2" = none ∧
    (handleConsumeWeapon exA "p2").turnRemainingMs = 5000 ∧
    (handleConsumeWeapon exA "p2").turnEndsAt = exA.now + 5000 :=
  ⟨rfl, rfl, rfl, rfl, rfl, rfl⟩

/-- C2 (counterexample): a fixed tick in which the non-active creature `c2`
(the only creature of `p2`) drowns leaves exactly one owner with living
creatures, yet `winnerSessionId` stays empty and the active player keeps
playing: the drown path does not re-evaluate the win condition. -/
theorem drown_nonactive_no_win_reeval :
    aget (fixedTick exA exPosDrown).creatures "c2" = none ∧
    aget (fixedTick exA exPosDrown).creatureBodies "c2" = none ∧
    distinctOwnersWithAlive (fixedTick exA exPosDrown) = ["p1"] ∧
    (fixedTick exA exPosDrown).winnerSessionId = "" ∧
    (fixedTick exA exPosDrown).activePlayerSessionId = "p1" :=
  ⟨rfl, rfl, rfl, rfl, rfl⟩

/-- C3: the claim states that a non-empty `winnerSessionId` is only ever set
when no other player (connected or in grace) owns a living creature.  In
`onLeave` (lines 277-288) the two-owner shortcut counts the remaining owners
after the leaver was already dropped from `joinOrder`: when `p3` leaves a
three-player game, the winner is declared to be `p1` while the connected
player `p2` still owns a living creature.  This theorem evaluates `onLeave`
at that failing input. -/
theorem onLeave_premature_winner :
    (onLeave exS3 "p3").winnerSessionId = "p1" ∧
    aget (onLeave exS3 "p3").creatures "c2" = some (mkCreature "c2" "p2") ∧
    aget (onLeave exS3 "p3").disconnectedUntil "p2" = none ∧
    aget (onLeave exS3 "p3").playerNames "p2" = some "Bob" :=
  ⟨rfl, rfl, rfl, rfl⟩

/-- C4: the claim states a takeover replaces the target's rotation slot in
place by the claimant.  But every takeover-eligible target has already been
removed from `joinOrder` by `onLeave` (line 272), so `indexOf` returns -1,
the in-place replacement is skipped, and the dedup filter (line 184) removes
the claimant from the rotation entirely.  Evaluated: `p2` leaves the
four-player game, `p9` joins and takes over `p2`; `p9` inherits `p2`'s
creature but ends up in no rotation slot at all. -/
theorem takeover_drops_claimant_from_rotation :
    aget exTakeover.creatures "c2" = some ⟨"c2", "p9", 100, 300, 16, "#2d8cf0", 100⟩ ∧
    aget exTakeover.creatures "n1" = none ∧
    aget exTakeover.disconnectedUntil "p2" = none ∧
    aget exTakeover.playerNames "p2" = none ∧
    exTakeover.joinOrder = ["p1", "p3", "p4"] ∧
    "p9" ∉ exTakeover.joinOrder := by
  refine ⟨rfl, rfl, rfl, rfl, rfl, ?_⟩
  decide

/-- C5: the claim states that on leave everything except the disconnect
marker is retained, in particular the turn-rotation slot.  The code records
the grace timestamp and keeps creatures and name, but `onLeave` line 272
removes the leaver from `joinOrder` and line 273 deletes their per-player
creature index.  Evaluated: `p4` leaves the four-player game. -/
theorem onLeave_drops_rotation_slot :
    aget (onLeave exS4 "p4").disconnectedUntil "p4" = some (exS4.now + disconnectGraceMs) ∧
    aget (onLeave exS4 "p4").creatures "c4" = some (mkCreature "c4" "p4") ∧
    aget (onLeave exS4 "p4").playerNames "p4" = some "Dave" ∧
    (onLeave exS4 "p4").winnerSessionId = "" ∧
    (onLeave exS4 "p4").joinOrder = ["p1", "p2", "p3"] ∧
    aget (onLeave exS4 "p4").lastCreatureIndexByPlayer "p4" = none :=
  ⟨rfl, rfl, rfl, rfl, rfl, rfl⟩

/-- C7: consuming a non-empty weapon slot clears the slot and overrides the
turn's remaining time to exactly the 5000 ms retreat window measured from
the moment of use, regardless of the time previously remaining. -/
theorem consumeWeapon_retreat_window (s : GameState) (sid w : String)
    (hw : aget s.weaponsByPlayer sid = some w) (hne : w ≠ "") :
    aget (handleConsumeWeapon s sid).weaponsByPlayer sid = none ∧
    (handleConsumeWeapon s sid).turnRemainingMs = 5000 ∧
    (handleConsumeWeapon s sid).turnEndsAt = s.now + 5000 := by
  simp only [handleConsumeWeapon, hw, if_neg hne]
  simp [aget_adel_self]

/-- C7 witness: the active player consumes a grenade 10 s into a 30 s turn
(20000 ms remaining); exactly 5000 ms remain afterwards. -/
theorem consumeWeapon_retreat_window_witness :
    aget exC7.weaponsByPlayer "p1" = some "grenade" ∧ exC7.turnRemainingMs = 20000 ∧
    aget (handleConsumeWeapon exC7 "p1").weaponsByPlayer "p1" = none ∧
    (handleConsumeWeapon exC7 "p1").turnRemainingMs = 5000 ∧
    (handleConsumeWeapon exC7 "p1").turnEndsAt = exC7.now + 5000 := by
  have h := consumeWeapon_retreat_window exC7 "p1" "grenade" rfl (by decide)
  exact ⟨rfl, rfl, h.1, h.2.1, h.2.2⟩

end RAF

namespace RAF

/-- C2 (amended): every elimination removes the creature from both the
replicated state and the physics index.  A damage-driven elimination of the
active creature forces an immediate turn advance; a damage-driven
elimination of a non-active creature re-evaluates the win condition, so that
an elimination leaving at most one owner sets MatchOver with that owner (or
nobody).  A drowning elimination of the active creature likewise forces an
immediate advance, but a non-active drowning performs the removal only: the
win condition is not re-evaluated in that tick. -/
theorem elimination_semantics_amended :
    (∀ (s : GameState) (id : String),
      (aget (deleteLoop s [id]).creatures id = none ∧
       aget (deleteLoop s [id]).creatureBodies id = none) ∧
      (id = s.activeCreatureId →
        deleteLoop s [id] =
          advanceTurn (removeCreatureBody { s with creatures := adel s.creatures id } id)) ∧
      (id ≠ s.activeCreatureId →
        deleteLoop s [id] =
          (checkWinCondition (removeCreatureBody { s with creatures := adel s.creatures id } id)).1 ∧
        ((distinctOwnersWithAlive
            (removeCreatureBody { s with creatures := adel s.creatures id } id)).length ≤ 1 →
          (deleteLoop s [id]).winnerSessionId =
            (distinctOwnersWithAlive
              (removeCreatureBody { s with creatures := adel s.creatures id } id)).headD ""))) ∧
    (∀ (s : GameState) (id : String), drownedIds s = [id] →
      (aget (tickDrownPhase s).creatures id = none ∧
       aget (tickDrownPhase s).creatureBodies id = none) ∧
      (id = s.activeCreatureId →
        tickDrownPhase s =
          advanceTurn (removeCreatureBody { s with creatures := adel s.creatures id } id)) ∧
      (id ≠ s.activeCreatureId →
        tickDrownPhase s = removeCreatureBody { s with creatures := adel s.creatures id } id)) := by
  constructor
  · intro s id
    obtain ⟨ha, hb⟩ := deleteLoop_lookup [id] s id
    refine ⟨⟨by simpa using ha, by simpa using hb⟩, ?_, ?_⟩
    · intro hact
      simp only [deleteLoop]
      rw [if_pos hact]
    · intro hact
      have heq : deleteLoop s [id] =
          (checkWinCondition (removeCreatureBody { s with creatures := adel s.creatures id } id)).1 := by
        simp only [deleteLoop]
        rw [if_neg hact]
      refine ⟨heq, ?_⟩
      intro hlen
      rw [heq, checkWin_winner, if_pos hlen]
  · intro s id hdr
    unfold tickDrownPhase
    rw [hdr]
    have hone : ∀ t : GameState, drownLoop t [id] =
        (if id = t.activeCreatureId
         then advanceTurn (removeCreatureBody { t with creatures := adel t.creatures id } id)
         else removeCreatureBody { t with creatures := adel t.creatures id } id) := by
      intro t
      simp only [drownLoop]
    rw [hone s]
    by_cases hact : id = s.activeCreatureId
    · rw [if_pos hact]
      refine ⟨⟨?_, ?_⟩, fun _ => rfl, fun hne => absurd hact hne⟩
      · rw [(advanceTurn_fields _).1]
        exact aget_adel_self s.creatures id
      · rw [(advanceTurn_fields _).2.1]
        exact aget_adel_self s.creatureBodies id
    · rw [if_neg hact]
      refine ⟨⟨?_, ?_⟩, fun heq => absurd heq hact, fun _ => rfl⟩
      · exact aget_adel_self s.creatures id
      · exact aget_adel_self s.creatureBodies id

/-- C2 amended witness: in `exD` the single drowned body is the non-active
`c2`; the drown phase removes it from state and physics and performs no win
re-evaluation. -/
theorem elimination_semantics_amended_witness :
    drownedIds exD = ["c2"] ∧ "c2" ≠ exD.activeCreatureId ∧
    tickDrownPhase exD =
      removeCreatureBody { exD with creatures := adel exD.creatures "c2" } "c2" := by
  refine ⟨rfl, by decide, ?_⟩
  exact (elimination_semantics_amended.2 exD "c2" rfl).2.2 (by decide)

end RAF

namespace RAF

/-- C6: for an `applyDamage` message from the active session whose hit list
names each creature at most once, a hit on an existing creature applies the
raw amount clamped to [0, 200], decreases hp with a floor of 0, and any
creature whose resulting hp reaches 0 is removed from both the replicated
state and the physics index; creatures not hit, and hits naming nonexistent
ids, change nothing.  (`KeyConsistent` states the room's keying convention:
every creature map entry is stored under the creature's own id.) -/
theorem applyDamage_clamp_floor_eliminate (s : GameState) (sid : String)
    (hits : List (String × Int)) (hsid : sid = s.activePlayerSessionId)
    (hnodup : (hits.map Prod.fst).Nodup) (hkeys : KeyConsistent s.creatures) (k : String) :
    (aget s.creatures k = none → aget (handleApplyDamage s sid hits).creatures k = none) ∧
    (∀ c, aget s.creatures k = some c → aget hits k = none →
       aget (handleApplyDamage s sid hits).creatures k = some c ∧
       aget (handleApplyDamage s sid hits).creatureBodies k = aget s.creatureBodies k) ∧
    (∀ c dmg, aget s.creatures k = some c → aget hits k = some dmg →
       (c.hp ≤ clampDamage dmg →
          aget (handleApplyDamage s sid hits).creatures k = none ∧
          aget (handleApplyDamage s sid hits).creatureBodies k = none) ∧
       (¬ c.hp ≤ clampDamage dmg →
          aget (handleApplyDamage s sid hits).creatures k =
            some { c with hp := max 0 (c.hp - clampDamage dmg) } ∧
          aget (handleApplyDamage s sid hits).creatureBodies k = aget s.creatureBodies k)) := by
  have hgate : ¬ sid ≠ s.activePlayerSessionId := by
    rw [hsid]
    exact fun hh => hh rfl
  have hred : handleApplyDamage s sid hits =
      deleteLoop { s with creatures := (damageLoop s.creatures hits).1 }
        (damageLoop s.creatures hits).2 := by
    simp only [handleApplyDamage]
    rw [if_neg hgate]
  obtain ⟨hdelC, hdelB⟩ :=
    deleteLoop_lookup (damageLoop s.creatures hits).2
      { s with creatures := (damageLoop s.creatures hits).1 } k
  have hmem := damageLoop_toDelete s.creatures hits hnodup hkeys k
  have hfst := damageLoop_lookup s.creatures hits hnodup k
  refine ⟨?_, ?_, ?_⟩
  · intro hnone
    rw [hred, hdelC]
    split
    · rfl
    · show aget (damageLoop s.creatures hits).1 k = none
      rw [hfst, hnone]
  · intro c hc hhit
    have hnotmem : k ∉ (damageLoop s.creatures hits).2 := by
      rw [hmem]
      rintro ⟨c', dmg', h1, h2, h3⟩
      rw [hhit] at h2
      cases h2
    rw [hred]
    constructor
    · rw [hdelC, if_neg hnotmem]
      show aget (damageLoop s.creatures hits).1 k = some c
      rw [hfst, hc, hhit]
    · rw [hdelB, if_neg hnotmem]
  · intro c dmg hc hhit
    constructor
    · intro hdie
      have hinmem : k ∈ (damageLoop s.creatures hits).2 :=
        hmem.mpr ⟨c, dmg, hc, hhit, hdie⟩
      rw [hred]
      exact ⟨by rw [hdelC, if_pos hinmem], by rw [hdelB, if_pos hinmem]⟩
    · intro halive
      have hnotmem : k ∉ (damageLoop s.creatures hits).2 := by
        rw [hmem]
        rintro ⟨c', dmg', h1, h2, h3⟩
        rw [hc] at h1
        rw [hhit] at h2
        have hc' : c = c' := by injection h1
        have hd' : dmg = dmg' := by injection h2
        rw [← hc', ← hd'] at h3
        exact halive h3
      rw [hred]
      constructor
      · rw [hdelC, if_neg hnotmem]
        show aget (damageLoop s.creatures hits).1 k = some { c with hp := max 0 (c.hp - clampDamage dmg) }
        rw [hfst, hc, hhit]
      · rw [hdelB, if_neg hnotmem]

theorem keyConsistent_of_entries (cs : List (String × Creature))
    (h : ∀ p ∈ cs, p.2.id = p.1) : KeyConsistent cs := by
  intro k c hg
  induction cs with
  | nil => simp [aget] at hg
  | cons p rest ih =>
    by_cases hp : p.1 = k
    · simp only [aget, hp, if_pos] at hg
      injection hg with hg
      rw [← hg, h p (List.mem_cons_self p rest)]
      exact hp
    · simp only [aget, hp, if_neg, if_false] at hg
      exact ih (fun q hq => h q (List.mem_cons_of_mem p hq)) hg

/-- C6 witness: the active player reports three hits: 30 raw damage on `c2`
(hp 100 → 70), 500 raw damage on `c1` (clamped to 200, hp 100 → 0,
eliminated from state and physics), and a hit on a nonexistent id. -/
theorem applyDamage_clamp_floor_eliminate_witness :
    aget (handleApplyDamage exA "p1" [("c2", 30), ("c1", 500), ("zz", 10)]).creatures "c2" =
      some { mkCreature "c2" "p2" with hp := 70 } ∧
    aget (handleApplyDamage exA "p1" [("c2", 30), ("c1", 500), ("zz", 10)]).creatures "c1" = none ∧
    aget (handleApplyDamage exA "p1" [("c2", 30), ("c1", 500), ("zz", 10)]).creatureBodies "c1" = none ∧
    aget (handleApplyDamage exA "p1" [("c2", 30), ("c1", 500), ("zz", 10)]).creatures "zz" = none := by
  have h2 := applyDamage_clamp_floor_eliminate exA "p1" [("c2", 30), ("c1", 500), ("zz", 10)]
    rfl (by decide) (keyConsistent_of_entries _ (by decide)) "c2"
  have h1 := applyDamage_clamp_floor_eliminate exA "p1" [("c2", 30), ("c1", 500), ("zz", 10)]
    rfl (by decide) (keyConsistent_of_entries _ (by decide)) "c1"
  have hz := applyDamage_clamp_floor_eliminate exA "p1" [("c2", 30), ("c1", 500), ("zz", 10)]
    rfl (by decide) (keyConsistent_of_entries _ (by decide)) "zz"
  have hc2 := (h2.2.2 (mkCreature "c2" "p2") 30 rfl rfl).2 (by decide)
  have hc1 := (h1.2.2 (mkCreature "c1" "p1") 500 rfl rfl).1 (by decide)
  have hzz := hz.1 rfl
  exact ⟨by rw [hc2.1]; rfl, hc1.1, hc1.2, hzz⟩

/-- C10: the undocumented `kill(creatureId)` message.  A nonexistent id, or a
sender that neither owns the creature nor is the active player, leaves the
state unchanged.  An authorised sender (owner or active player) has the
creature removed from the replicated state; if it was the active creature
the turn scheduler advances, otherwise the win condition is re-evaluated.
(Only the replicated entry is deleted; the claim makes no statement about
the physics body, and indeed the handler does not remove it.) -/
theorem kill_message_semantics (s : GameState) (sid cid : String) :
    (aget s.creatures cid = none → handleKill s sid cid = s) ∧
    (∀ c, aget s.creatures cid = some c → c.ownerSessionId ≠ sid →
       sid ≠ s.activePlayerSessionId → handleKill s sid cid = s) ∧
    (∀ c, aget s.creatures cid = some c →
       (c.ownerSessionId = sid ∨ sid = s.activePlayerSessionId) →
       aget (handleKill s sid cid).creatures cid = none ∧
       (s.activeCreatureId = cid →
          handleKill s sid cid = advanceTurn { s with creatures := adel s.creatures cid }) ∧
       (s.activeCreatureId ≠ cid →
          handleKill s sid cid =
            (checkWinCondition { s with creatures := adel s.creatures cid }).1)) := by
  refine ⟨?_, ?_, ?_⟩
  · intro hnone
    simp only [handleKill, hnone]
  · intro c hc howner hactive
    simp only [handleKill, hc]
    rw [if_pos ⟨howner, hactive⟩]
  · intro c hc hauth
    have hnot : ¬ (c.ownerSessionId ≠ sid ∧ sid ≠ s.activePlayerSessionId) := by
      rintro ⟨h1, h2⟩
      rcases hauth with h | h
      · exact h1 h
      · exact h2 h
    have hred : handleKill s sid cid =
        (if s.activeCreatureId = cid
         then advanceTurn { s with creatures := adel s.creatures cid }
         else (checkWinCondition { s with creatures := adel s.creatures cid }).1) := by
      simp only [handleKill, hc]
      rw [if_neg hnot]
    refine ⟨?_, ?_, ?_⟩
    · rw [hred]
      split
      · rw [(advanceTurn_fields _).1]
        exact aget_adel_self s.creatures cid
      · rw [(checkWin_fields _).1]
        exact aget_adel_self s.creatures cid
    · intro hact
      rw [hred, if_pos hact]
    · intro hact
      rw [hred, if_neg hact]

/-- C10 witness: the non-active owner `p2` kills their own creature `c2`:
it disappears from the replicated state, and since it was not the active
creature the win condition is re-evaluated (here `p1` becomes winner). -/
theorem kill_message_semantics_witness :
    exA.activePlayerSessionId = "p1" ∧
    aget (handleKill exA "p2" "c2").creatures "c2" = none ∧
    handleKill exA "p2" "c2" =
      (checkWinCondition { exA with creatures := adel exA.creatures "c2" }).1 := by
  have h := (kill_message_semantics exA "p2" "c2").2.2 (mkCreature "c2" "p2") rfl
    (Or.inl rfl)
  exact ⟨rfl, h.1, h.2.2 (by decide)⟩

end RAF

namespace RAF

/-- C8 (counterexample): with exactly one eligible player, a single end-turn
does not return the turn to that player: `advanceTurn` first re-evaluates
the win condition, which at ≤ 1 owner declares MatchOver — the active player
id is cleared and the single player is declared winner, refuting round-robin
closure at N = 1. -/
theorem endTurn_single_player_ends_match :
    exS1.joinOrder = ["p1"] ∧
    exS1.activePlayerSessionId = "p1" ∧
    distinctOwnersWithAlive exS1 = ["p1"] ∧
    (endTurnStep exS1).activePlayerSessionId = "" ∧
    (endTurnStep exS1).winnerSessionId = "p1" :=
  ⟨rfl, rfl, rfl, rfl, rfl⟩

/-- C8 (amended): with N ≥ 2 eligible players (duplicate-free rotation,
each connected with at least one living creature, active player among
them), N consecutive end-turns by the current active player return the
active player to the initial one, and each of those advances freshly resets
the countdown to the full 30-second turn duration with a deadline of
now + 30 s. -/
theorem rotation_closure_amended (s : GameState) (h : EligibleRound s) :
    (endTurnStep^[s.joinOrder.length] s).activePlayerSessionId = s.activePlayerSessionId ∧
    (∀ k, 1 ≤ k → k ≤ s.joinOrder.length →
      (endTurnStep^[k] s).turnRemainingMs = turnDurationMs ∧
      (endTurnStep^[k] s).turnEndsAt = s.now + turnDurationMs) := by
  obtain ⟨hnd, hlen, hmem, halive, hconn⟩ := h
  obtain ⟨⟨i, hi⟩, hget⟩ := List.mem_iff_get.mp hmem
  have hact : s.activePlayerSessionId = s.joinOrder.getD i "" := by
    rw [getD_eq_get s.joinOrder i "" hi]
    exact hget.symm
  have hh : EligibleRound s := ⟨hnd, hlen, hmem, halive, hconn⟩
  constructor
  · have hiter := endTurnStep_iterate s hh i hi hact s.joinOrder.length
    rw [hiter.1, Nat.add_mod_right, Nat.mod_eq_of_lt hi, hact]
  · intro k hk1 hk2
    exact (endTurnStep_iterate s hh i hi hact k).2.2.2.2.2 hk1

/-- C8 amended witness: in the two-player state `exA`, two end-turns return
the turn to `p1`, and the first advance resets the countdown to 30000 ms. -/
theorem rotation_closure_amended_witness :
    EligibleRound exA ∧
    (endTurnStep^[exA.joinOrder.length] exA).activePlayerSessionId = exA.activePlayerSessionId ∧
    (endTurnStep^[1] exA).turnRemainingMs = turnDurationMs := by
  have helig : EligibleRound exA := by
    refine ⟨by decide, by decide, by decide, by decide, by decide⟩
  have h := rotation_closure_amended exA helig
  exact ⟨helig, h.1, (h.2 1 (by omega) (by decide)).1⟩

/-- C9: crate singularity.  In every reachable room state the replicated
crate map and the crate physics index each hold at most one entry, and under
the crate invariant every `spawnCrate` removes all prior crates before
adding the (single) freshly drawn one: afterwards at most one crate remains
and every remaining crate carries the freshly drawn id. -/
theorem crate_singularity :
    (∀ (tp : List Int) (t0 : Nat) (rng : List (String × Nat)) (s : GameState),
       Reachable tp t0 rng s → s.crates.length ≤ 1 ∧ s.crateBodies.length ≤ 1) ∧
    (∀ s : GameState, CrateInv s →
       (spawnCrate s).crates.length ≤ 1 ∧ (spawnCrate s).crateBodies.length ≤ 1 ∧
       ∀ p ∈ (spawnCrate s).crates, p.1 = (s.rngCrate.headD ("", 0)).1) := by
  constructor
  · intro tp t0 rng s hreach
    obtain ⟨hkeys, hlen⟩ := crateInv_reachable hreach
    refine ⟨hlen, ?_⟩
    have : s.crates.length = s.crateBodies.length := by
      have := congrArg List.length hkeys
      simpa using this
    omega
  · intro s hinv
    obtain ⟨hkeys2, hlen2⟩ := crateInv_spawnCrate s hinv
    refine ⟨hlen2, ?_, ?_⟩
    · have : (spawnCrate s).crates.length = (spawnCrate s).crateBodies.length := by
        have := congrArg List.length hkeys2
        simpa using this
      omega
    · obtain ⟨he1, he2⟩ := clearCrates_empty_of_inv s hinv
      obtain ⟨cr0, cb0, hcc⟩ := clearCrates_shape s
      have hcr0 : cr0 = [] := by rw [hcc] at he1; exact he1
      have hcb0 : cb0 = [] := by rw [hcc] at he2; exact he2
      subst hcr0
      subst hcb0
      by_cases ht : s.terrainPoints.length < 4
      · intro p hp
        simp [spawnCrate, hcc, ht] at hp
      · intro p hp
        simp [spawnCrate, hcc, ht, aset] at hp
        rw [hp]
        simp [List.headD_eq_head?_getD]

/-- C9 witness: the invariant instantiated at the freshly created room. -/
theorem crate_singularity_witness :
    (initState [] 0 []).crates.length ≤ 1 ∧ (initState [] 0 []).crateBodies.length ≤ 1 :=
  crate_singularity.1 [] 0 [] (initState [] 0 []) Relation.ReflTransGen.refl

end RAF
